import Mathlib

/-!
# In-memory TODO-list server (`src/main.go`): shallow embedding and properties

Modelling conventions.

* A Go `string` / `[]byte` is a list of bytes (`GoString`).
* A Go `int` is a mathematical integer.  The only arithmetic the program performs on an
  `int` is `listIDCounter++`, once per successful create request; the counter is not wrapped
  at `2 ^ 63`, a value it reaches only after that many create requests.  Identifiers read
  from a url are within the `int64` range, as `Sscanf` rejects the others.
* The two package-level variables `todoLists` and `listIDCounter` form the `Store`; every
  handler takes the store and returns the new one.  Each handler body runs under the
  process-wide lock, so a handler is one atomic step on the store.
* `json.Unmarshal` is a parameter `unmarshal : GoString → Option TodoList` (`none` is a
  non-nil error, `some r` is the decoded struct).
* `fmt.Sscanf(url, "/api/list/%d", &listID)` is modelled by `Sscanf` for that one format on
  a 64-bit platform.
* An index-out-of-range failure is the outcome `Outcome.panic`.
-/

namespace TodoServer

/-! ## Strings -/

/-- A Go string: a sequence of bytes. -/
abbrev GoString := List UInt8

/-- The bytes of an ASCII literal. -/
def str (s : String) : GoString := s.toList.map (fun c => UInt8.ofNat c.toNat)

/-- Decimal digits of a natural number. -/
def fmtNat (n : Nat) : GoString := (Nat.toDigits 10 n).map (fun c => UInt8.ofNat c.toNat)

/-- The verbs `%d` and `%v` applied to an `int`: optional minus sign, then decimal digits. -/
def fmtInt : Int → GoString
  | Int.ofNat n => fmtNat n
  | Int.negSucc n => str "-" ++ fmtNat (n + 1)

/-- The verb `%t`. -/
def fmtBool : Bool → GoString
  | true => str "true"
  | false => str "false"

/-- The function `strings.Join`. -/
def Join (elems : List GoString) (sep : GoString) : GoString := sep.intercalate elems

/-! ## Data model -/

/-- One element of the anonymous struct slice `TodoList.List`. -/
structure Item where
  ItemID : Int
  Detail : GoString
  Completed : Bool
deriving DecidableEq

/-- The struct `TodoList`. -/
structure TodoList where
  Id : Int
  Title : GoString
  List : List Item
deriving DecidableEq

/-- The package-level state: the map `todoLists` and the counter `listIDCounter`. -/
structure Store where
  todoLists : Int → Option TodoList
  listIDCounter : Int

/-- State at process start: `make(map[int]*TodoList)` and `0`. -/
def initStore : Store := ⟨fun _ => none, 0⟩

/-! ## Serializer -/

/-- The `fmt.Sprintf` call inside the loop of `formatItemList`. -/
def formatItem (item : Item) : GoString :=
  str "\x7b\n\t\t\t\"itemid\": " ++ fmtInt item.ItemID ++
  str ",\n\t\t\t\"detail\": \"" ++ item.Detail ++
  str "\",\n\t\t\t\"completed\": " ++ fmtBool item.Completed ++
  str "\n\t\t\x7d"

/-- The function `formatItemList`. -/
def formatItemList (items : TodoList) : GoString :=
  str "[" ++ Join (items.List.map formatItem) (str ",") ++ str "]"

/-- The `fmt.Sprintf` call of `handleGetRequest`. -/
def formatList (listID : Int) (list : TodoList) : GoString :=
  str "\x7b\n\t\t\"id\": " ++ fmtInt listID ++
  str ",\n\t\t\"title\": \"" ++ list.Title ++
  str "\",\n\t\t\"list\": " ++ formatItemList list ++
  str "\n\t\x7d"

/-! ## Store operations -/

/-- The function `handleGetRequest`: a read-only lookup, returns the response body. -/
def handleGetRequest (listID : Int) (s : Store) : GoString :=
  match s.todoLists listID with
  | none => str "\x7b\x7d"
  | some list => formatList listID list

/-- The function `handleDeleteRequest`: `delete(todoLists, listID)`. -/
def handleDeleteRequest (listID : Int) (s : Store) : Store :=
  { s with todoLists := Function.update s.todoLists listID none }

/-- The function `handlePostNewListRequest`: returns the response body and the new store. -/
def handlePostNewListRequest (request : TodoList) (s : Store) : GoString × Store :=
  let listIDCounter := s.listIDCounter + 1
  (str "\x7b\"id\":" ++ fmtInt listIDCounter ++ str "\x7d",
   { todoLists := Function.update s.todoLists listIDCounter (some request),
     listIDCounter := listIDCounter })

/-- The function `handlePostListRequest`. -/
def handlePostListRequest (request : TodoList) (s : Store) : Store :=
  match s.todoLists request.Id with
  | none => s
  | some _ => { s with todoLists := Function.update s.todoLists request.Id (some request) }

/-! ## Sequences of store operations -/

/-- A call of one of the four store operations. -/
inductive Op where
  | Get (id : Int)
  | Create (r : TodoList)
  | Replace (r : TodoList)
  | Delete (id : Int)

/-- Store after one operation. -/
def Op.next (s : Store) : Op → Store
  | Op.Get _ => s
  | Op.Create r => (handlePostNewListRequest r s).2
  | Op.Replace r => handlePostListRequest r s
  | Op.Delete id => handleDeleteRequest id s

/-- Store after a sequence of operations, applied left to right. -/
def run (s : Store) : List Op → Store
  | [] => s
  | op :: ops => run (op.next s) ops

/-- The identifiers assigned by the `Create` calls of a sequence, in call order: the value of
`listIDCounter` that `handlePostNewListRequest` prints. -/
def createdIDs (s : Store) : List Op → List Int
  | [] => []
  | Op.Create r :: ops =>
      (handlePostNewListRequest r s).2.listIDCounter :: createdIDs (handlePostNewListRequest r s).2 ops
  | op :: ops => createdIDs (op.next s) ops

/-- The strings returned by the `Create` calls of a sequence, in call order. -/
def createReplies (s : Store) : List Op → List GoString
  | [] => []
  | Op.Create r :: ops =>
      (handlePostNewListRequest r s).1 :: createReplies (handlePostNewListRequest r s).2 ops
  | op :: ops => createReplies (op.next s) ops

/-- Number of `Create` calls in a sequence. -/
def countCreates : List Op → Nat
  | [] => 0
  | Op.Create _ :: ops => countCreates ops + 1
  | _ :: ops => countCreates ops

/-- The body `handlePostNewListRequest` returns for identifier `k`. -/
def idReply (k : Int) : GoString := str "\x7b\"id\":" ++ fmtInt k ++ str "\x7d"

/-! ## Request parsing -/

/-- The function `strings.HasPrefix`. -/
def HasPrefix (s pre : GoString) : Bool := pre.isPrefixOf s

/-- Text before and after the first occurrence of the (non-empty) separator, if there is one. -/
def cut (sep : GoString) : GoString → Option (GoString × GoString)
  | [] => none
  | c :: cs =>
    if sep.isPrefixOf (c :: cs) then some ([], (c :: cs).drop sep.length)
    else match cut sep cs with
      | none => none
      | some (before, after) => some (c :: before, after)

/-- The call `strings.SplitN(s, sep, 2)` for a non-empty separator: `[s]` when `sep` does not
occur in `s`, otherwise the text before and the text after its first occurrence. -/
def SplitN2 (s sep : GoString) : List GoString :=
  match cut sep s with
  | none => [s]
  | some (before, after) => [before, after]

/-- The call `strings.Split(s, sep)` for a one-byte separator. -/
def Split (sep : UInt8) : GoString → List GoString
  | [] => [[]]
  | c :: cs =>
    if c = sep then [] :: Split sep cs
    else match Split sep cs with
      | [] => [[c]]
      | w :: ws => (c :: w) :: ws

/-- The call `strings.Trim(s, cutset)` for a cutset of one byte. -/
def Trim (s : GoString) (c : UInt8) : GoString :=
  (s.dropWhile (fun b => b == c)).rdropWhile (fun b => b == c)

/-- Size of the read buffer, `1024 * 1024`. -/
def bufferSize : Nat := 1024 * 1024

/-- The value of `string(request)` after `conn.Read` stored `bytes` in the zeroed buffer. -/
def requestBuffer (bytes : GoString) : GoString :=
  bytes.take bufferSize ++ List.replicate (bufferSize - (bytes.take bufferSize).length) 0

/-- ASCII decimal digit. -/
def isDigit (b : UInt8) : Bool := decide (48 ≤ b.toNat ∧ b.toNat ≤ 57)

/-- Value of a run of decimal digits. -/
def digitsValue (ds : GoString) : Nat := ds.foldl (fun acc d => 10 * acc + (d.toNat - 48)) 0

/-- The method `SkipSpace` of the scanner of package `fmt` (newlines are not spaces for
`Sscanf`): skips the UTF-8 encoded runes for which `isSpace` holds; `none` is the error
"unexpected newline". -/
def SkipSpace : GoString → Option GoString
  | [] => some []
  | b :: rest =>
    if b = 10 then none
    else if b = 9 ∨ b = 11 ∨ b = 12 ∨ b = 13 ∨ b = 32 then SkipSpace rest
    else match rest with
      | [] => some [b]
      | b2 :: rest2 =>
        if b = 0xC2 ∧ (b2 = 0x85 ∨ b2 = 0xA0) then SkipSpace rest2
        else match rest2 with
          | [] => some [b, b2]
          | b3 :: rest3 =>
            if (b = 0xE1 ∧ b2 = 0x9A ∧ b3 = 0x80)
                ∨ (b = 0xE2 ∧ b2 = 0x80 ∧ ((0x80 ≤ b3.toNat ∧ b3.toNat ≤ 0x8A) ∨ b3 = 0xA8 ∨ b3 = 0xA9 ∨ b3 = 0xAF))
                ∨ (b = 0xE2 ∧ b2 = 0x81 ∧ b3 = 0x9F)
                ∨ (b = 0xE3 ∧ b2 = 0x80 ∧ b3 = 0x80) then SkipSpace rest3
            else some (b :: b2 :: b3 :: rest3)

/-- The call `fmt.Sscanf(url, "/api/list/%d", &listID)` on a 64-bit platform: `some listID`
when it returns `n == 1` and a nil error, `none` otherwise.  The literal text must match, then
spaces are skipped, then an optional sign and at least one decimal digit are read, and the
value has to fit an `int64`; input after the digits is left unread. -/
def Sscanf (url : GoString) : Option Int :=
  if HasPrefix url (str "/api/list/") then
    match SkipSpace (url.drop 10) with
    | none => none
    | some input =>
      let neg := input.head? = some 45
      let unsigned := if input.head? = some 45 ∨ input.head? = some 43 then input.drop 1 else input
      let digits := unsigned.takeWhile isDigit
      if digits = [] then none
      else
        let v : Int := if neg then -(digitsValue digits : Int) else (digitsValue digits : Int)
        if -9223372036854775808 ≤ v ∧ v ≤ 9223372036854775807 then some v else none
  else none

/-! ## Connection handler -/

/-- Result of the single `conn.Read` call. -/
inductive ReadResult where
  | eof
  | error
  | data (bytes : GoString)

/-- What one run of `handleConnection` does on its connection: returns without writing, calls
`sendResponse(conn, code, msg, body)`, or fails with an index out of range (which is not
recovered and terminates the process). -/
inductive Outcome where
  | closed
  | response (code : Int) (msg body : GoString)
  | panic
deriving DecidableEq

/-- The expression `strings.Trim(strings.SplitN(requestLines[1], "\r\n\r\n", 2)[1], "\x00")`;
`none` when one of the two index expressions is out of range. -/
def requestBody (requestLines : List GoString) : Option GoString :=
  match requestLines with
  | _ :: rest :: _ =>
    match SplitN2 rest (str "\r\n\r\n") with
    | _ :: body :: _ => some (Trim body 0)
    | _ => none
  | _ => none

/-- The variable `requestLines` of `handleConnection`:
`strings.SplitN(string(request), "\r\n", 2)`. -/
def requestLines (bytes : GoString) : List GoString :=
  SplitN2 (requestBuffer bytes) (str "\r\n")

/-- The variable `requestLine` of `handleConnection`: `strings.Split(requestLines[0], " ")`.
Its element 0 is the method and its element 1 the url. -/
def requestLine (bytes : GoString) : List GoString :=
  Split 32 ((requestLines bytes).headD [])

/-- The function `handleConnection`, as a step from the store and the result of the read to
the outcome on the connection and the new store (after a panic the store is of no interest
and is returned as it was). -/
def handleConnection (unmarshal : GoString → Option TodoList) (s : Store) :
    ReadResult → Outcome × Store
  | ReadResult.eof => (Outcome.closed, s)
  | ReadResult.error => (Outcome.response 500 (str "Internal Server Error") [], s)
  | ReadResult.data bytes =>
    match requestLine bytes with
    | method :: url :: _ =>
      if method = str "GET" ∧ HasPrefix url (str "/api/list") = true then
        match Sscanf url with
        | none => (Outcome.response 400 (str "Bad Request") [], s)
        | some listID => (Outcome.response 200 (str "OK") (handleGetRequest listID s), s)
      else if method = str "POST" ∧ url = str "/api/list/new" then
        match requestBody (requestLines bytes) with
        | none => (Outcome.panic, s)
        | some body =>
          match unmarshal body with
          | none => (Outcome.response 400 (str "Bad Request") [], s)
          | some newListRequest =>
            (Outcome.response 200 (str "OK") (handlePostNewListRequest newListRequest s).1,
             (handlePostNewListRequest newListRequest s).2)
      else if method = str "POST" ∧ HasPrefix url (str "/api/list") = true then
        match Sscanf url with
        | none => (Outcome.response 400 (str "Bad Request") [], s)
        | some listID =>
          match requestBody (requestLines bytes) with
          | none => (Outcome.panic, s)
          | some body =>
            match unmarshal body with
            | none => (Outcome.response 400 (str "Bad Request") [], s)
            | some modifyListRequest =>
              if modifyListRequest.Id ≠ listID then
                (Outcome.response 400 (str "Bad Request") [], s)
              else
                (Outcome.response 200 (str "OK") [], handlePostListRequest modifyListRequest s)
      else if method = str "DELETE" ∧ HasPrefix url (str "/api/list") = true then
        match Sscanf url with
        | none => (Outcome.response 400 (str "Bad Request") [], s)
        | some listID => (Outcome.response 200 (str "OK") [], handleDeleteRequest listID s)
      else (Outcome.response 404 (str "Not Found") [], s)
    | _ => (Outcome.panic, s)

/-- The bytes `sendResponse` writes to the connection. -/
def sendResponse (code : Int) (msg body : GoString) : GoString :=
  str "HTTP/1.1 " ++ fmtInt code ++ str " " ++ msg ++ str "\r\n Content-Length: " ++
  fmtInt body.length ++ str "\r\n\r\n" ++ body

/-! ## Lemmas on the string functions -/

theorem cut_eq_some {sep l before after : GoString} (h : cut sep l = some (before, after)) :
    l = before ++ sep ++ after := by
  induction l generalizing before with
  | nil => simp [cut] at h
  | cons c cs ih =>
    rw [cut] at h
    split at h
    · rename_i hp
      simp only [Option.some.injEq, Prod.mk.injEq] at h
      obtain ⟨rfl, rfl⟩ := h
      rw [List.isPrefixOf_iff_prefix] at hp
      obtain ⟨t, ht⟩ := hp
      rw [← ht]
      simp
    · split at h
      · simp at h
      · rename_i b a hc
        simp only [Option.some.injEq, Prod.mk.injEq] at h
        obtain ⟨rfl, rfl⟩ := h
        rw [ih hc]
        simp

theorem cut_append {sep l before after : GoString} (h : cut sep l = some (before, after))
    (pad : GoString) : cut sep (l ++ pad) = some (before, after ++ pad) := by
  induction l generalizing before with
  | nil => simp [cut] at h
  | cons c cs ih =>
    rw [cut] at h
    rw [List.cons_append, cut]
    split at h
    · rename_i hp
      simp only [Option.some.injEq, Prod.mk.injEq] at h
      obtain ⟨rfl, rfl⟩ := h
      rw [List.isPrefixOf_iff_prefix] at hp
      have hp2 : sep.isPrefixOf (c :: (cs ++ pad)) = true := by
        rw [List.isPrefixOf_iff_prefix, ← List.cons_append]
        exact hp.trans (List.prefix_append _ _)
      rw [if_pos hp2, ← List.cons_append, List.drop_append_of_le_length hp.length_le]
    · rename_i hp
      split at h
      · simp at h
      · rename_i b a hc
        simp only [Option.some.injEq, Prod.mk.injEq] at h
        obtain ⟨rfl, rfl⟩ := h
        have hlen : sep.length ≤ (c :: cs).length := by
          have := congrArg List.length (cut_eq_some hc)
          simp only [List.length_append, List.length_cons] at this ⊢
          omega
        have hp2 : ¬ sep.isPrefixOf (c :: (cs ++ pad)) = true := by
          intro hq
          rw [List.isPrefixOf_iff_prefix, ← List.cons_append] at hq
          apply hp
          rw [List.isPrefixOf_iff_prefix]
          exact List.prefix_of_prefix_length_le hq (List.prefix_append _ _) hlen
        rw [if_neg hp2, ih hc]

theorem cut_eq_none_of_not_mem {sep : GoString} {b : UInt8} {l : GoString}
    (hb : b ∈ sep) (hl : b ∉ l) : cut sep l = none := by
  induction l with
  | nil => rfl
  | cons c cs ih =>
    rw [cut]
    have hp : ¬ sep.isPrefixOf (c :: cs) = true := by
      intro hq
      rw [List.isPrefixOf_iff_prefix] at hq
      exact hl (hq.subset hb)
    rw [if_neg hp, ih (fun h => hl (List.mem_cons_of_mem _ h))]

theorem Split_of_not_mem {sep : UInt8} {l : GoString} (hl : sep ∉ l) : Split sep l = [l] := by
  induction l with
  | nil => rfl
  | cons c cs ih =>
    rw [Split, if_neg (fun (h : c = sep) => hl (h ▸ List.mem_cons_self _ _)),
      ih (fun h => hl (List.mem_cons_of_mem _ h))]

theorem Split_append_sep {sep : UInt8} {a : GoString} (b : GoString) (h : sep ∉ a) :
    Split sep (a ++ sep :: b) = a :: Split sep b := by
  induction a with
  | nil => simp [Split]
  | cons c cs ih =>
    have hc : c ≠ sep := fun (e : c = sep) => h (e ▸ List.mem_cons_self _ _)
    rw [List.cons_append, Split, if_neg hc, ih (fun m => h (List.mem_cons_of_mem _ m))]

theorem requestBuffer_of_le {bytes : GoString} (h : bytes.length ≤ bufferSize) :
    requestBuffer bytes = bytes ++ List.replicate (bufferSize - bytes.length) 0 := by
  rw [requestBuffer, List.take_of_length_le h]

theorem requestLines_of_cut {bytes line rest : GoString} (hlen : bytes.length ≤ bufferSize)
    (h : cut (str "\r\n") bytes = some (line, rest)) :
    requestLines bytes = [line, rest ++ List.replicate (bufferSize - bytes.length) 0] := by
  rw [requestLines, requestBuffer_of_le hlen, SplitN2, cut_append h]

theorem requestLine_of_cut {bytes line rest : GoString} (hlen : bytes.length ≤ bufferSize)
    (h : cut (str "\r\n") bytes = some (line, rest)) :
    requestLine bytes = Split 32 line := by
  rw [requestLine, requestLines_of_cut hlen h]
  rfl

theorem dropWhile_replicate_zero (n : Nat) (l : GoString) :
    (List.replicate n (0 : UInt8) ++ l).dropWhile (fun b => b == 0) = l.dropWhile (fun b => b == 0) := by
  induction n with
  | zero => rfl
  | succ n ih => rw [List.replicate_succ, List.cons_append, List.dropWhile_cons_of_pos (by rfl), ih]

theorem Trim_append_zeros (body : GoString) (n : Nat) :
    Trim (body ++ List.replicate n 0) 0 = Trim body 0 := by
  unfold Trim
  rw [List.dropWhile_append]
  split
  · rename_i he
    have h0 : (List.replicate n (0 : UInt8)).dropWhile (fun b => b == 0) = [] := by
      have := dropWhile_replicate_zero n []
      rw [List.append_nil] at this
      exact this
    rw [h0, List.isEmpty_iff.mp he]
  · rw [List.rdropWhile, List.rdropWhile, List.reverse_append, List.reverse_replicate,
      dropWhile_replicate_zero]

theorem requestBody_of_cut {line rest headers body : GoString} (n : Nat)
    (h : cut (str "\r\n\r\n") rest = some (headers, body)) :
    requestBody [line, rest ++ List.replicate n 0] = some (Trim body 0) := by
  rw [requestBody, SplitN2, cut_append h]
  simp only [Trim_append_zeros]

/-! ## Decimal rendering and scanning -/

theorem toDigitsCore_acc (fuel n : Nat) (ds : List Char) :
    Nat.toDigitsCore 10 fuel n ds = Nat.toDigitsCore 10 fuel n [] ++ ds := by
  induction fuel generalizing n ds with
  | zero => rfl
  | succ fuel ih =>
    simp only [Nat.toDigitsCore]
    split
    · rfl
    · rw [ih, ih (n / 10) [Nat.digitChar (n % 10)], List.append_assoc, List.singleton_append]

theorem toDigitsCore_step (fuel n : Nat) :
    Nat.toDigitsCore 10 (fuel + 1) n []
      = if n / 10 = 0 then [Nat.digitChar (n % 10)]
        else Nat.toDigitsCore 10 fuel (n / 10) [] ++ [Nat.digitChar (n % 10)] := by
  simp only [Nat.toDigitsCore]
  split
  · rfl
  · rw [toDigitsCore_acc]

theorem digitChar_byte (d : Nat) (h : d < 10) :
    isDigit (UInt8.ofNat (Nat.digitChar d).toNat) = true ∧
    (UInt8.ofNat (Nat.digitChar d).toNat).toNat - 48 = d := by
  revert d
  decide

theorem digitsValue_append (l : GoString) (d : UInt8) :
    digitsValue (l ++ [d]) = 10 * digitsValue l + (d.toNat - 48) := by
  simp [digitsValue, List.foldl_append]

theorem toDigitsCore_spec (fuel n : Nat) (h : n < fuel) :
    (Nat.toDigitsCore 10 fuel n []).map (fun c => UInt8.ofNat c.toNat) ≠ [] ∧
    (∀ b ∈ (Nat.toDigitsCore 10 fuel n []).map (fun c => UInt8.ofNat c.toNat), isDigit b = true) ∧
    digitsValue ((Nat.toDigitsCore 10 fuel n []).map (fun c => UInt8.ofNat c.toNat)) = n := by
  induction fuel generalizing n with
  | zero => omega
  | succ fuel ih =>
    rw [toDigitsCore_step]
    have hd := digitChar_byte (n % 10) (Nat.mod_lt _ (by decide))
    split
    · rename_i h0
      refine ⟨by simp, ?_, ?_⟩
      · intro b hb
        simp only [List.map_cons, List.map_nil, List.mem_singleton] at hb
        rw [hb]
        exact hd.1
      · simp only [List.map_cons, List.map_nil, digitsValue, List.foldl_cons, List.foldl_nil]
        rw [hd.2]
        omega
    · rename_i h0
      have hlt : n / 10 < fuel := by omega
      obtain ⟨_, h2, h3⟩ := ih (n / 10) hlt
      refine ⟨by simp, ?_, ?_⟩
      · intro b hb
        rw [List.map_append, List.mem_append] at hb
        rcases hb with hb | hb
        · exact h2 b hb
        · simp only [List.map_cons, List.map_nil, List.mem_singleton] at hb
          rw [hb]
          exact hd.1
      · rw [List.map_append, List.map_cons, List.map_nil, digitsValue_append, h3, hd.2]
        omega

theorem fmtNat_spec (n : Nat) :
    fmtNat n ≠ [] ∧ (∀ b ∈ fmtNat n, isDigit b = true) ∧ digitsValue (fmtNat n) = n :=
  toDigitsCore_spec (n + 1) n (Nat.lt_succ_self n)

theorem isDigit_bounds {b : UInt8} (h : isDigit b = true) : 48 ≤ b.toNat ∧ b.toNat ≤ 57 := by
  simpa [isDigit] using h

theorem SkipSpace_of_digit_or_sign {b : UInt8} (rest : GoString)
    (h : isDigit b = true ∨ b = 45 ∨ b = 43) : SkipSpace (b :: rest) = some (b :: rest) := by
  have hb : 43 ≤ b.toNat ∧ b.toNat ≤ 57 := by
    rcases h with h | h | h
    · have := isDigit_bounds h
      omega
    · rw [h]; decide
    · rw [h]; decide
  have ne : ∀ c : UInt8, (c.toNat < 43 ∨ 57 < c.toNat) → ¬ b = c := by
    intro c hc hbc
    rw [hbc] at hb
    omega
  have n10 := ne 10 (by decide)
  have n9 := ne 9 (by decide)
  have n11 := ne 11 (by decide)
  have n12 := ne 12 (by decide)
  have n13 := ne 13 (by decide)
  have n32 := ne 32 (by decide)
  have nC2 := ne 0xC2 (by decide)
  have nE1 := ne 0xE1 (by decide)
  have nE2 := ne 0xE2 (by decide)
  have nE3 := ne 0xE3 (by decide)
  match rest with
  | [] => simp [SkipSpace, n10, n9, n11, n12, n13, n32]
  | [b2] => simp [SkipSpace, n10, n9, n11, n12, n13, n32, nC2]
  | b2 :: b3 :: rest3 =>
    simp [SkipSpace, n10, n9, n11, n12, n13, n32, nC2, nE1, nE2, nE3]

theorem takeWhile_digits_append {ds tail : GoString} (hds : ∀ b ∈ ds, isDigit b = true)
    (htail : (tail.head?.map isDigit).getD false = false) :
    (ds ++ tail).takeWhile isDigit = ds := by
  induction ds with
  | nil =>
    cases tail with
    | nil => rfl
    | cons t ts =>
      simp only [List.head?_cons, Option.map_some', Option.getD_some] at htail
      rw [List.nil_append, List.takeWhile_cons, htail]
      rfl
  | cons d ds ih =>
    rw [List.cons_append, List.takeWhile_cons, hds d (List.mem_cons_self _ _),
      ih (fun b hb => hds b (List.mem_cons_of_mem _ hb))]
    rfl

/-- The scan reads back the identifier printed with `%d`: a url made of `/api/list/`, the
decimal rendering of an identifier in the `int64` range, and any text that does not begin
with a digit, scans to that identifier. -/
theorem Sscanf_fmtInt (id : Int) (tail : GoString)
    (hlo : -9223372036854775808 ≤ id) (hhi : id ≤ 9223372036854775807)
    (htail : (tail.head?.map isDigit).getD false = false) :
    Sscanf (str "/api/list/" ++ fmtInt id ++ tail) = some id := by
  have hp : HasPrefix (str "/api/list/" ++ fmtInt id ++ tail) (str "/api/list/") = true := by
    rw [HasPrefix, List.isPrefixOf_iff_prefix, List.append_assoc]
    exact List.prefix_append _ _
  have hd : (str "/api/list/" ++ fmtInt id ++ tail).drop 10 = fmtInt id ++ tail := by
    rw [List.append_assoc, List.drop_append_of_le_length (by decide)]
    rfl
  rw [Sscanf, if_pos hp, hd]
  cases id with
  | ofNat n =>
    obtain ⟨hne, hdig, hval⟩ := fmtNat_spec n
    obtain ⟨d, ds, hcons⟩ := List.exists_cons_of_ne_nil hne
    have hdd : isDigit d = true := hdig d (by rw [hcons]; exact List.mem_cons_self _ _)
    have hdb := isDigit_bounds hdd
    have h45 : ¬ d = 45 := by intro e; rw [e] at hdb; revert hdb; decide
    have h43 : ¬ d = 43 := by intro e; rw [e] at hdb; revert hdb; decide
    have htw : (d :: (ds ++ tail)).takeWhile isDigit = d :: ds := by
      have := @takeWhile_digits_append (d :: ds) tail
        (by rw [← hcons]; exact hdig) htail
      simpa using this
    simp only [fmtInt, hcons, List.cons_append, SkipSpace_of_digit_or_sign _ (Or.inl hdd),
      List.head?_cons, Option.some.injEq, h45, h43, or_self, if_false, htw]
    rw [← hcons, hval, if_neg hne, if_pos ⟨hlo, hhi⟩]
    rfl
  | negSucc n =>
    obtain ⟨hne, hdig, hval⟩ := fmtNat_spec (n + 1)
    have e45 : str "-" = [45] := by decide
    have htw : (fmtNat (n + 1) ++ tail).takeWhile isDigit = fmtNat (n + 1) :=
      takeWhile_digits_append hdig htail
    simp only [fmtInt, e45, List.cons_append, List.nil_append,
      SkipSpace_of_digit_or_sign _ (Or.inr (Or.inl rfl)), List.head?_cons, true_or, if_true,
      List.drop_one, List.tail_cons, htw, hval, hne, if_false]
    rw [if_pos]
    · rfl
    · exact ⟨hlo, hhi⟩

/-! ## Well-formed request lines -/

theorem cut_at_first {a : GoString} (b : GoString) (c : UInt8) (cs : GoString) (h : c ∉ a) :
    cut (c :: cs) (a ++ (c :: cs) ++ b) = some (a, b) := by
  induction a with
  | nil =>
    have hp : (c :: cs).isPrefixOf (c :: (cs ++ b)) = true := by
      rw [List.isPrefixOf_iff_prefix, ← List.cons_append]
      exact List.prefix_append _ _
    rw [List.nil_append, List.cons_append, cut, if_pos hp, ← List.cons_append,
      List.drop_left]
  | cons x xs ih =>
    have hx : ¬ (c :: cs).isPrefixOf (x :: (xs ++ (c :: cs) ++ b)) = true := by
      intro hq
      rw [List.isPrefixOf_iff_prefix] at hq
      obtain ⟨t, ht⟩ := hq
      rw [List.cons_append] at ht
      have hcx : c = x := (List.cons.inj ht).1
      exact h (hcx ▸ List.mem_cons_self _ _)
    rw [List.cons_append, List.cons_append, cut, if_neg hx,
      ih (fun m => h (List.mem_cons_of_mem _ m))]

theorem requestLines_wellformed (line rest : GoString) (h13 : 13 ∉ line)
    (hlen : (line ++ str "\r\n" ++ rest).length ≤ bufferSize) :
    requestLines (line ++ str "\r\n" ++ rest)
      = [line, rest ++ List.replicate (bufferSize - (line ++ str "\r\n" ++ rest).length) 0] :=
  requestLines_of_cut hlen (cut_at_first rest 13 [10] h13)

theorem requestLine_wellformed (method url rest : GoString)
    (hm : 32 ∉ method) (hu : 32 ∉ url)
    (h13 : 13 ∉ method ++ 32 :: url ++ str " HTTP/1.1")
    (hlen : (method ++ 32 :: url ++ str " HTTP/1.1" ++ str "\r\n" ++ rest).length ≤ bufferSize) :
    requestLine (method ++ 32 :: url ++ str " HTTP/1.1" ++ str "\r\n" ++ rest)
      = [method, url, str "HTTP/1.1"] := by
  rw [requestLine_of_cut hlen (cut_at_first rest 13 [10] h13)]
  have e : method ++ 32 :: url ++ str " HTTP/1.1"
      = method ++ 32 :: (url ++ 32 :: str "HTTP/1.1") := by
    have e1 : str " HTTP/1.1" = 32 :: str "HTTP/1.1" := by decide
    rw [e1]
    simp only [List.append_assoc, List.cons_append]
  rw [e, Split_append_sep _ hm, Split_append_sep _ hu, Split_of_not_mem (by decide)]

theorem fmtInt_mem {id : Int} {b : UInt8} (h : b ∈ fmtInt id) : isDigit b = true ∨ b = 45 := by
  cases id with
  | ofNat n => exact Or.inl ((fmtNat_spec n).2.1 b h)
  | negSucc n =>
    have e45 : str "-" = [45] := by decide
    simp only [fmtInt, e45, List.singleton_append, List.mem_cons] at h
    rcases h with h | h
    · exact Or.inr h
    · exact Or.inl ((fmtNat_spec (n + 1)).2.1 b h)

theorem fmtInt_length_le {id : Int} (hlo : -9223372036854775808 ≤ id)
    (hhi : id ≤ 9223372036854775807) : (fmtInt id).length ≤ 20 := by
  cases id with
  | ofNat n =>
    have hn : n < 10 ^ 19 := by
      have : (n : Int) ≤ 9223372036854775807 := hhi
      omega
    have := Nat.toDigitsCore_length 10 (by decide) (n + 1) n 19 hn (by decide)
    simp only [fmtInt, fmtNat, List.length_map, Nat.toDigits]
    omega
  | negSucc n =>
    have hn : n + 1 < 10 ^ 19 := by
      have : -9223372036854775808 ≤ -((n : Int) + 1) := by
        have h2 : Int.negSucc n = -((n : Int) + 1) := rfl
        rw [← h2]
        exact hlo
      omega
    have := Nat.toDigitsCore_length 10 (by decide) (n + 1 + 1) (n + 1) 19 hn (by decide)
    have e45 : str "-" = [45] := by decide
    simp only [fmtInt, fmtNat, e45, List.singleton_append, List.length_cons, List.length_map,
      Nat.toDigits]
    omega

theorem requestLine_list_id (method : GoString) (id : Int) (hm : 32 ∉ method)
    (hm13 : 13 ∉ method) (hmlen : method.length ≤ 16)
    (hlo : -9223372036854775808 ≤ id) (hhi : id ≤ 9223372036854775807) :
    requestLine (method ++ 32 :: (str "/api/list/" ++ fmtInt id) ++ str " HTTP/1.1"
        ++ str "\r\n" ++ str "\r\n")
      = [method, str "/api/list/" ++ fmtInt id, str "HTTP/1.1"] := by
  have hnot : ∀ b : UInt8, isDigit b = false → b ≠ 45 → b ∉ str "/api/list/" →
      b ∉ str "/api/list/" ++ fmtInt id := by
    intro b h1 h2 h3 hb
    rw [List.mem_append] at hb
    rcases hb with hb | hb
    · exact h3 hb
    · rcases fmtInt_mem hb with h | h
      · rw [h1] at h
        cases h
      · exact h2 h
  apply requestLine_wellformed
  · exact hm
  · exact hnot 32 (by decide) (by decide) (by decide)
  · intro h
    simp only [List.mem_append, List.mem_cons] at h
    rcases h with (h | h | h) | h
    · exact hm13 h
    · exact absurd h (by decide)
    · exact hnot 13 (by decide) (by decide) (by decide) (List.mem_append.mpr h)
    · exact absurd h (by decide)
  · have := fmtInt_length_le hlo hhi
    have e1 : (str "/api/list/").length = 10 := by decide
    have e2 : (str " HTTP/1.1").length = 9 := by decide
    have e3 : (str "\r\n").length = 2 := by decide
    simp only [List.length_append, List.length_cons, e1, e2, e3, bufferSize]
    omega

/-! ## Identifiers assigned by Create -/

theorem createdIDs_eq_range (s : Store) (ops : List Op) :
    createdIDs s ops =
      (List.range' 1 (countCreates ops)).map (fun (k : Nat) => s.listIDCounter + (k : Int)) := by
  induction ops generalizing s with
  | nil => rfl
  | cons op ops ih =>
    cases op with
    | Create r =>
      simp only [createdIDs, countCreates, ih, handlePostNewListRequest]
      rw [List.range'_succ, List.map_cons, List.range'_eq_map_range 2,
        List.range'_eq_map_range 1, List.map_map, List.map_map]
      simp only [List.cons.injEq, Nat.cast_one, true_and]
      apply List.map_congr_left
      intro k _
      simp only [Function.comp_apply]
      push_cast
      ring
    | Get id => simp only [createdIDs, countCreates, ih, Op.next]
    | Replace r =>
      simp only [createdIDs, countCreates, ih, Op.next, handlePostListRequest]
      split <;> rfl
    | Delete id => simp only [createdIDs, countCreates, ih, Op.next, handleDeleteRequest]

theorem createReplies_eq_map (s : Store) (ops : List Op) :
    createReplies s ops = (createdIDs s ops).map idReply := by
  induction ops generalizing s with
  | nil => rfl
  | cons op ops ih =>
    cases op with
    | Create r =>
      simp only [createReplies, createdIDs, ih, List.map_cons]
      rfl
    | Get id => simp only [createReplies, createdIDs, ih]
    | Replace r => simp only [createReplies, createdIDs, ih]
    | Delete id => simp only [createReplies, createdIDs, ih]

theorem createdIDs_init (ops : List Op) :
    createdIDs initStore ops = (List.range' 1 (countCreates ops)).map (fun (k : Nat) => (k : Int)) := by
  rw [createdIDs_eq_range]
  apply List.map_congr_left
  intro k _
  simp [initStore]

theorem createdIDs_pairwise (s : Store) (ops : List Op) :
    (createdIDs s ops).Pairwise (fun a b => a < b) := by
  rw [createdIDs_eq_range, List.pairwise_map]
  have h := List.pairwise_lt_range' 1 (countCreates ops) 1
  exact h.imp (fun hab => by omega)

/-- C1: from the initial store, the identifiers returned by the Create calls of any sequence of
operations are 1, 2, ..., n in call order (the k-th Create returns k, rendered as the body
`{"id":k}`), so they are strictly increasing, distinct and positive. -/
theorem create_ids_sequential (ops : List Op) :
    createdIDs initStore ops = (List.range' 1 (countCreates ops)).map (fun (k : Nat) => (k : Int)) ∧
    createReplies initStore ops
      = (List.range' 1 (countCreates ops)).map (fun (k : Nat) => idReply (k : Int)) ∧
    (createdIDs initStore ops).Pairwise (fun a b => a < b) ∧
    (createdIDs initStore ops).Nodup ∧
    ∀ id ∈ createdIDs initStore ops, 0 < id := by
  refine ⟨createdIDs_init ops, ?_, createdIDs_pairwise _ ops, ?_, ?_⟩
  · rw [createReplies_eq_map, createdIDs_init, List.map_map]
    rfl
  · exact (createdIDs_pairwise _ ops).imp (fun h => ne_of_lt h)
  · intro id hid
    rw [createdIDs_init, List.mem_map] at hid
    obtain ⟨k, hk, rfl⟩ := hid
    have := (List.mem_range'_1.mp hk).1
    exact_mod_cast this

/-! ## Create, Replace, Delete on one store -/

theorem Sscanf_hasPrefix {url : GoString} {id : Int} (h : Sscanf url = some id) :
    HasPrefix url (str "/api/list") = true := by
  unfold Sscanf at h
  split at h
  · rename_i hp
    unfold HasPrefix at hp ⊢
    rw [List.isPrefixOf_iff_prefix] at hp ⊢
    exact List.IsPrefix.trans (by decide) hp
  · simp at h

theorem Sscanf_ne_new {url : GoString} {id : Int} (h : Sscanf url = some id) :
    url ≠ str "/api/list/new" := by
  intro hu
  have hnone : Sscanf (str "/api/list/new") = none := by decide
  rw [hu, hnone] at h
  cases h

/-- C2: Create increments the counter by exactly one, stores the record it was given (whatever
its own id field is) under the new counter value n, returns the body `{"id":n}`, and leaves
every other key as it was; Get(n) then returns the serialization with id n, the record's title
and its items.  On the initial store the body is `{"id":1}` and Get(1) contains
`"title": "<title>"` and, for an empty item list, `"list": []`. -/
theorem create_stores_record (s : Store) (r : TodoList) :
    (handlePostNewListRequest r s).2.listIDCounter = s.listIDCounter + 1 ∧
    (handlePostNewListRequest r s).1 = idReply (s.listIDCounter + 1) ∧
    (∀ k, (handlePostNewListRequest r s).2.todoLists k
        = if k = s.listIDCounter + 1 then some r else s.todoLists k) ∧
    handleGetRequest (s.listIDCounter + 1) (handlePostNewListRequest r s).2
      = str "\x7b\n\t\t\"id\": " ++ fmtInt (s.listIDCounter + 1) ++
        str ",\n\t\t\"title\": \"" ++ r.Title ++
        str "\",\n\t\t\"list\": " ++ formatItemList r ++ str "\n\t\x7d" ∧
    (handlePostNewListRequest r initStore).1 = str "\x7b\"id\":1\x7d" ∧
    (∃ pre post, handleGetRequest 1 (handlePostNewListRequest r initStore).2
        = pre ++ str "\"title\": \"" ++ r.Title ++ str "\"" ++ post) ∧
    (∀ (i : Int) (t : GoString), ∃ pre post,
      handleGetRequest 1 (handlePostNewListRequest ⟨i, t, []⟩ initStore).2
        = pre ++ str "\"list\": []" ++ post) := by
  have hget : ∀ (s : Store) (r : TodoList),
      handleGetRequest (s.listIDCounter + 1) (handlePostNewListRequest r s).2
        = formatList (s.listIDCounter + 1) r := by
    intro s r
    simp [handleGetRequest, handlePostNewListRequest]
  refine ⟨rfl, rfl, ?_, ?_, rfl, ?_, ?_⟩
  · intro k
    simp only [handlePostNewListRequest, Function.update_apply]
  · rw [hget]
    rfl
  · refine ⟨str "\x7b\n\t\t\"id\": " ++ fmtInt 1 ++ str ",\n\t\t",
      str ",\n\t\t\"list\": " ++ formatItemList r ++ str "\n\t\x7d", ?_⟩
    have h1 := hget initStore r
    simp only [initStore, zero_add] at h1 ⊢
    rw [h1, formatList]
    have e1 : str ",\n\t\t\"title\": \"" = str ",\n\t\t" ++ str "\"title\": \"" := by decide
    have e2 : str "\",\n\t\t\"list\": " = str "\"" ++ str ",\n\t\t\"list\": " := by decide
    rw [e1, e2]
    simp only [List.append_assoc]
  · intro i t
    refine ⟨str "\x7b\n\t\t\"id\": " ++ fmtInt 1 ++ str ",\n\t\t\"title\": \"" ++ t ++ str "\",\n\t\t",
      str "\n\t\x7d", ?_⟩
    have h1 := hget initStore ⟨i, t, []⟩
    simp only [initStore, zero_add] at h1 ⊢
    rw [h1, formatList, formatItemList]
    have e1 : str "\",\n\t\t\"list\": " = str "\",\n\t\t" ++ str "\"list\": " := by decide
    have e2 : str "[" ++ Join (List.map formatItem []) (str ",") ++ str "]" = str "[]" := by decide
    have e3 : str "\"list\": []" = str "\"list\": " ++ str "[]" := by decide
    rw [e1, e2, e3]
    simp only [List.append_assoc]

theorem handlePostListRequest_absent {s : Store} {r : TodoList} (h : s.todoLists r.Id = none) :
    handlePostListRequest r s = s := by
  simp only [handlePostListRequest, h]

theorem handlePostListRequest_present {s : Store} {r : TodoList}
    (h : (s.todoLists r.Id).isSome = true) :
    handlePostListRequest r s
      = { s with todoLists := Function.update s.todoLists r.Id (some r) } := by
  obtain ⟨old, hold⟩ := Option.isSome_iff_exists.mp h
  simp only [handlePostListRequest, hold]

/-- C3: Replace with a record whose id is not a key leaves the store (map and counter) as it
was; when the id is a key, the entry under it becomes exactly the given record, the counter
and every other entry are unchanged, and Get of that id returns the serialization of the new
title and the new item array. -/
theorem replace_overwrites_existing (s : Store) (r : TodoList) :
    (s.todoLists r.Id = none → handlePostListRequest r s = s) ∧
    ((s.todoLists r.Id).isSome = true →
      (handlePostListRequest r s).todoLists r.Id = some r ∧
      (handlePostListRequest r s).listIDCounter = s.listIDCounter ∧
      (∀ k, k ≠ r.Id → (handlePostListRequest r s).todoLists k = s.todoLists k) ∧
      handleGetRequest r.Id (handlePostListRequest r s)
        = str "\x7b\n\t\t\"id\": " ++ fmtInt r.Id ++
          str ",\n\t\t\"title\": \"" ++ r.Title ++
          str "\",\n\t\t\"list\": " ++ formatItemList r ++ str "\n\t\x7d") := by
  refine ⟨handlePostListRequest_absent, fun h => ?_⟩
  have hs := handlePostListRequest_present h
  refine ⟨?_, ?_, ?_, ?_⟩
  · rw [hs]; simp
  · rw [hs]
  · intro k hk
    rw [hs]
    simp [Function.update_apply, hk]
  · rw [hs]
    simp [handleGetRequest, formatList]

/-- Witness for C3: a Replace on the initial store (id 1 absent) changes nothing, and a Replace
of list 1 after one Create stores the new record. -/
theorem replace_overwrites_existing_witness :
    handlePostListRequest ⟨1, str "groceries", [⟨1, str "milk", false⟩]⟩ initStore = initStore ∧
    (handlePostListRequest ⟨1, str "groceries", [⟨1, str "milk", false⟩]⟩
        (handlePostNewListRequest ⟨0, str "groceries", []⟩ initStore).2).todoLists 1
      = some ⟨1, str "groceries", [⟨1, str "milk", false⟩]⟩ :=
  ⟨(replace_overwrites_existing initStore ⟨1, str "groceries", [⟨1, str "milk", false⟩]⟩).1 rfl,
   ((replace_overwrites_existing (handlePostNewListRequest ⟨0, str "groceries", []⟩ initStore).2
      ⟨1, str "groceries", [⟨1, str "milk", false⟩]⟩).2 (by decide)).1⟩

/-! ## Requests through the connection handler -/

theorem handleConnection_delete (unmarshal : GoString → Option TodoList) (s : Store)
    {bytes url : GoString} {more : List GoString} {id : Int}
    (hline : requestLine bytes = str "DELETE" :: url :: more) (hid : Sscanf url = some id) :
    handleConnection unmarshal s (ReadResult.data bytes)
      = (Outcome.response 200 (str "OK") [], handleDeleteRequest id s) := by
  have h1 : str "DELETE" ≠ str "GET" := by decide
  have h2 : str "DELETE" ≠ str "POST" := by decide
  simp only [handleConnection, hline, h1, h2, false_and, if_false, Sscanf_hasPrefix hid, hid,
    and_self, if_true]

theorem handleConnection_get (unmarshal : GoString → Option TodoList) (s : Store)
    {bytes url : GoString} {more : List GoString} {id : Int}
    (hline : requestLine bytes = str "GET" :: url :: more) (hid : Sscanf url = some id) :
    handleConnection unmarshal s (ReadResult.data bytes)
      = (Outcome.response 200 (str "OK") (handleGetRequest id s), s) := by
  simp only [handleConnection, hline, Sscanf_hasPrefix hid, hid, and_self, if_true]

theorem requestLine_delete_1 :
    requestLine (str "DELETE /api/list/1 HTTP/1.1\r\nHost: localhost\r\n\r\n")
      = [str "DELETE", str "/api/list/1", str "HTTP/1.1"] :=
  (requestLine_of_cut (by decide)
    (by decide : cut (str "\r\n") (str "DELETE /api/list/1 HTTP/1.1\r\nHost: localhost\r\n\r\n")
      = some (str "DELETE /api/list/1 HTTP/1.1", str "Host: localhost\r\n\r\n"))).trans (by decide)

theorem requestLine_get_1 :
    requestLine (str "GET /api/list/1 HTTP/1.1\r\nHost: localhost\r\n\r\n")
      = [str "GET", str "/api/list/1", str "HTTP/1.1"] :=
  (requestLine_of_cut (by decide)
    (by decide : cut (str "\r\n") (str "GET /api/list/1 HTTP/1.1\r\nHost: localhost\r\n\r\n")
      = some (str "GET /api/list/1 HTTP/1.1", str "Host: localhost\r\n\r\n"))).trans (by decide)

theorem Sscanf_list_1 : Sscanf (str "/api/list/1") = some 1 := by decide

theorem handleDeleteRequest_absent {s : Store} {id : Int} (h : s.todoLists id = none) :
    handleDeleteRequest id s = s := by
  cases s with
  | mk m c =>
    simp only [handleDeleteRequest, Store.mk.injEq, and_true]
    simp only at h
    rw [← h, Function.update_eq_self]

theorem delete_request_bytes (id : Int) :
    str "DELETE /api/list/" ++ fmtInt id ++ str " HTTP/1.1\r\n\r\n"
      = str "DELETE" ++ 32 :: (str "/api/list/" ++ fmtInt id) ++ str " HTTP/1.1"
        ++ str "\r\n" ++ str "\r\n" := by
  have e1 : str "DELETE /api/list/" = str "DELETE" ++ 32 :: str "/api/list/" := by decide
  have e2 : str " HTTP/1.1\r\n\r\n" = str " HTTP/1.1" ++ (str "\r\n" ++ str "\r\n") := by decide
  rw [e1, e2]
  simp only [List.append_assoc, List.cons_append]

theorem get_request_bytes (id : Int) :
    str "GET /api/list/" ++ fmtInt id ++ str " HTTP/1.1\r\n\r\n"
      = str "GET" ++ 32 :: (str "/api/list/" ++ fmtInt id) ++ str " HTTP/1.1"
        ++ str "\r\n" ++ str "\r\n" := by
  have e1 : str "GET /api/list/" = str "GET" ++ 32 :: str "/api/list/" := by decide
  have e2 : str " HTTP/1.1\r\n\r\n" = str " HTTP/1.1" ++ (str "\r\n" ++ str "\r\n") := by decide
  rw [e1, e2]
  simp only [List.append_assoc, List.cons_append]

theorem Sscanf_list_id {id : Int} (hlo : -9223372036854775808 ≤ id)
    (hhi : id ≤ 9223372036854775807) : Sscanf (str "/api/list/" ++ fmtInt id) = some id := by
  have h := Sscanf_fmtInt id [] hlo hhi rfl
  rw [List.append_nil] at h
  exact h

/-- C4: a DELETE request for `/api/list/<id>` (any request whose method is DELETE and whose
url scans to id, in particular the request line `DELETE /api/list/<id> HTTP/1.1` for every id
of the `int` range) is answered 200 with an empty body whether or not id is a key, also when
it is repeated on the resulting store; afterwards id is not a key; deleting an absent id
leaves the store as it was; hence deleting twice gives the same store as deleting once. -/
theorem delete_idempotent (unmarshal : GoString → Option TodoList) (s : Store) (id : Int) :
    (∀ (bytes url : GoString) (more : List GoString),
      requestLine bytes = str "DELETE" :: url :: more → Sscanf url = some id →
      handleConnection unmarshal s (ReadResult.data bytes)
        = (Outcome.response 200 (str "OK") [], handleDeleteRequest id s) ∧
      handleConnection unmarshal (handleDeleteRequest id s) (ReadResult.data bytes)
        = (Outcome.response 200 (str "OK") [], handleDeleteRequest id s)) ∧
    (-9223372036854775808 ≤ id → id ≤ 9223372036854775807 →
      handleConnection unmarshal s
          (ReadResult.data (str "DELETE /api/list/" ++ fmtInt id ++ str " HTTP/1.1\r\n\r\n"))
        = (Outcome.response 200 (str "OK") [], handleDeleteRequest id s)) ∧
    (handleDeleteRequest id s).todoLists id = none ∧
    (s.todoLists id = none → handleDeleteRequest id s = s) ∧
    handleDeleteRequest id (handleDeleteRequest id s) = handleDeleteRequest id s := by
  have habs : (handleDeleteRequest id s).todoLists id = none := by
    simp [handleDeleteRequest]
  refine ⟨?_, ?_, habs, fun h => handleDeleteRequest_absent h, handleDeleteRequest_absent habs⟩
  · intro bytes url more hline hid
    refine ⟨handleConnection_delete unmarshal s hline hid, ?_⟩
    rw [handleConnection_delete unmarshal _ hline hid, handleDeleteRequest_absent habs]
  · intro hlo hhi
    rw [delete_request_bytes]
    exact handleConnection_delete unmarshal s
      (requestLine_list_id (str "DELETE") id (by decide) (by decide) (by decide) hlo hhi)
      (Sscanf_list_id hlo hhi)

/-- Witness for C4: `DELETE /api/list/1` on the store holding list 1, and again on the
result. -/
theorem delete_idempotent_witness :
    handleConnection (fun _ => none) (handlePostNewListRequest ⟨0, str "groceries", []⟩ initStore).2
        (ReadResult.data (str "DELETE /api/list/1 HTTP/1.1\r\nHost: localhost\r\n\r\n"))
      = (Outcome.response 200 (str "OK") [],
          handleDeleteRequest 1 (handlePostNewListRequest ⟨0, str "groceries", []⟩ initStore).2) ∧
    handleConnection (fun _ => none)
        (handleDeleteRequest 1 (handlePostNewListRequest ⟨0, str "groceries", []⟩ initStore).2)
        (ReadResult.data (str "DELETE /api/list/1 HTTP/1.1\r\nHost: localhost\r\n\r\n"))
      = (Outcome.response 200 (str "OK") [],
          handleDeleteRequest 1 (handlePostNewListRequest ⟨0, str "groceries", []⟩ initStore).2) ∧
    handleDeleteRequest 1 initStore = initStore :=
  have h := (delete_idempotent (fun _ => none)
    (handlePostNewListRequest ⟨0, str "groceries", []⟩ initStore).2 1).1 _ _ _
    requestLine_delete_1 Sscanf_list_1
  ⟨h.1, h.2, (delete_idempotent (fun _ => none) initStore 1).2.2.2.1 rfl⟩

/-! ## Reachable stores -/

theorem run_append (s : Store) (a b : List Op) : run s (a ++ b) = run (run s a) b := by
  induction a generalizing s with
  | nil => rfl
  | cons op a ih => exact ih (op.next s)

theorem createdIDs_next (s : Store) (op : Op) (ops : List Op) :
    createdIDs s (op :: ops) = createdIDs s [op] ++ createdIDs (op.next s) ops := by
  cases op <;> simp [createdIDs, Op.next]

theorem createdIDs_append (s : Store) (a b : List Op) :
    createdIDs s (a ++ b) = createdIDs s a ++ createdIDs (run s a) b := by
  induction a generalizing s with
  | nil => rfl
  | cons op a ih =>
    rw [List.cons_append, createdIDs_next, ih, createdIDs_next s op a, run, List.append_assoc]

theorem counter_le_next (s : Store) (op : Op) : s.listIDCounter ≤ (op.next s).listIDCounter := by
  cases op with
  | Get id => exact le_refl _
  | Create r => simp [Op.next, handlePostNewListRequest]
  | Replace r =>
    simp only [Op.next, handlePostListRequest]
    split <;> exact le_refl _
  | Delete id => exact le_refl _

theorem counter_le_run (s : Store) (ops : List Op) : s.listIDCounter ≤ (run s ops).listIDCounter := by
  induction ops generalizing s with
  | nil => exact le_refl _
  | cons op ops ih => exact le_trans (counter_le_next s op) (ih _)

theorem key_of_next {s : Store} {op : Op} {k : Int}
    (h : ((op.next s).todoLists k).isSome = true) :
    (s.todoLists k).isSome = true ∨ k ∈ createdIDs s [op] := by
  cases op with
  | Get id => exact Or.inl h
  | Create r =>
    simp only [Op.next, handlePostNewListRequest, Function.update_apply] at h
    split at h
    · rename_i hk
      right
      simp [createdIDs, handlePostNewListRequest, hk]
    · exact Or.inl h
  | Replace r =>
    simp only [Op.next, handlePostListRequest] at h
    split at h
    · exact Or.inl h
    · rename_i old hold
      simp only [Function.update_apply] at h
      split at h
      · rename_i hk
        left
        rw [hk, hold]
        rfl
      · exact Or.inl h
  | Delete id =>
    simp only [Op.next, handleDeleteRequest, Function.update_apply] at h
    split at h
    · simp at h
    · exact Or.inl h

theorem key_of_run {s : Store} {ops : List Op} {k : Int}
    (h : ((run s ops).todoLists k).isSome = true) :
    (s.todoLists k).isSome = true ∨ k ∈ createdIDs s ops := by
  induction ops generalizing s with
  | nil => exact Or.inl h
  | cons op ops ih =>
    rw [createdIDs_next, List.mem_append]
    rcases ih h with h1 | h1
    · rcases key_of_next h1 with h2 | h2
      · exact Or.inl h2
      · exact Or.inr (Or.inl h2)
    · exact Or.inr (Or.inr h1)

theorem absent_of_not_created {s : Store} {ops : List Op} {id : Int}
    (h0 : s.todoLists id = none) (hc : id ∉ createdIDs s ops) :
    (run s ops).todoLists id = none := by
  cases hk : (run s ops).todoLists id with
  | none => rfl
  | some r =>
    have : ((run s ops).todoLists id).isSome = true := by rw [hk]; rfl
    rcases key_of_run this with h1 | h1
    · rw [h0] at h1
      simp at h1
    · exact absurd h1 hc

theorem keys_bounded (ops : List Op) (k : Int)
    (h : ((run initStore ops).todoLists k).isSome = true) :
    1 ≤ k ∧ k ≤ (run initStore ops).listIDCounter := by
  rcases key_of_run h with h1 | h1
  · simp [initStore] at h1
  · have hk := h1
    rw [createdIDs_eq_range, List.mem_map] at hk
    obtain ⟨j, hj, rfl⟩ := hk
    have hj1 := (List.mem_range'_1.mp hj).1
    constructor
    · simp only [initStore]
      omega
    · -- the counter after the run is the number of creates
      have hcount : ∀ (s : Store) (l : List Op),
          (run s l).listIDCounter = s.listIDCounter + (countCreates l : Int) := by
        intro s l
        induction l generalizing s with
        | nil => simp [run, countCreates]
        | cons op l ih =>
          cases op with
          | Get id => simp [run, countCreates, ih, Op.next]
          | Create r =>
            simp only [run, countCreates, ih, Op.next, handlePostNewListRequest]
            push_cast
            ring
          | Replace r =>
            simp only [run, countCreates, ih, Op.next, handlePostListRequest]
            split <;> rfl
          | Delete id => simp [run, countCreates, ih, Op.next, handleDeleteRequest]
      rw [hcount]
      have hj2 := (List.mem_range'_1.mp hj).2
      simp only [initStore]
      omega

theorem handleGetRequest_absent {s : Store} {id : Int} (h : s.todoLists id = none) :
    handleGetRequest id s = str "\x7b\x7d" := by
  simp only [handleGetRequest, h]

/-- C5: a GET request for `/api/list/<id>` (any request whose method is GET and whose url
scans to id, in particular the request line `GET /api/list/<id> HTTP/1.1` for every id of the
`int` range) is answered 200 with body exactly `{}` in every store where id is not a key; in a
store reached from the initial one this is the case for every id that no Create returned and
for every id that was created and has been deleted since; in particular Get(id) after
Delete(id) returns `{}`. -/
theorem get_absent_returns_empty (unmarshal : GoString → Option TodoList) (id : Int) :
    (∀ (s : Store) (bytes url : GoString) (more : List GoString),
      requestLine bytes = str "GET" :: url :: more → Sscanf url = some id →
      s.todoLists id = none →
      handleConnection unmarshal s (ReadResult.data bytes)
        = (Outcome.response 200 (str "OK") (str "\x7b\x7d"), s)) ∧
    (∀ s : Store, -9223372036854775808 ≤ id → id ≤ 9223372036854775807 →
      s.todoLists id = none →
      handleConnection unmarshal s
          (ReadResult.data (str "GET /api/list/" ++ fmtInt id ++ str " HTTP/1.1\r\n\r\n"))
        = (Outcome.response 200 (str "OK") (str "\x7b\x7d"), s)) ∧
    (∀ ops : List Op, id ∉ createdIDs initStore ops →
      (run initStore ops).todoLists id = none) ∧
    (∀ pre post : List Op, id ∈ createdIDs initStore pre →
      (run initStore (pre ++ Op.Delete id :: post)).todoLists id = none) ∧
    (∀ s : Store, (handleDeleteRequest id s).todoLists id = none ∧
      handleGetRequest id (handleDeleteRequest id s) = str "\x7b\x7d") := by
  have hdel : ∀ s : Store, (handleDeleteRequest id s).todoLists id = none := by
    intro s
    simp [handleDeleteRequest]
  refine ⟨?_, ?_, ?_, ?_, fun s => ⟨hdel s, handleGetRequest_absent (hdel s)⟩⟩
  · intro s bytes url more hline hid h
    rw [handleConnection_get unmarshal s hline hid, handleGetRequest_absent h]
  · intro s hlo hhi h
    rw [get_request_bytes, handleConnection_get unmarshal s
      (requestLine_list_id (str "GET") id (by decide) (by decide) (by decide) hlo hhi)
      (Sscanf_list_id hlo hhi), handleGetRequest_absent h]
  · intro ops hc
    exact absent_of_not_created rfl hc
  · intro pre post hpre
    rw [run_append, run]
    apply absent_of_not_created (hdel _)
    intro hpost
    have hnd : (createdIDs initStore (pre ++ Op.Delete id :: post)).Nodup :=
      (createdIDs_pairwise _ _).imp (fun h => ne_of_lt h)
    rw [createdIDs_append, createdIDs_next] at hnd
    have hdis := (List.nodup_append.mp hnd).2.2
    exact hdis hpre (List.mem_append_right _ hpost)

/-- Witness for C5: `GET /api/list/1` on the initial store, where no list was ever created,
and list 1 after it was created and deleted. -/
theorem get_absent_returns_empty_witness :
    handleConnection (fun _ => none) initStore
        (ReadResult.data (str "GET /api/list/1 HTTP/1.1\r\nHost: localhost\r\n\r\n"))
      = (Outcome.response 200 (str "OK") (str "\x7b\x7d"), initStore) ∧
    (run initStore [Op.Create ⟨0, str "groceries", []⟩, Op.Delete 1, Op.Get 1]).todoLists 1
      = none :=
  have h := get_absent_returns_empty (fun _ => none) 1
  ⟨h.1 initStore _ _ _ requestLine_get_1 Sscanf_list_1 rfl,
   h.2.2.2.1 [Op.Create ⟨0, str "groceries", []⟩] [Op.Get 1] (by decide)⟩

/-! ## Identifier invariants -/

/-- C6: no store operation decreases the counter; in every store reached from the initial one
every key k satisfies 1 ≤ k ≤ counter; hence the identifier a Create returns was not a key at
any earlier point of the run, whatever was deleted in between. -/
theorem ids_never_reused :
    (∀ (s : Store) (op : Op), s.listIDCounter ≤ (op.next s).listIDCounter) ∧
    (∀ (ops : List Op) (k : Int), ((run initStore ops).todoLists k).isSome = true →
      1 ≤ k ∧ k ≤ (run initStore ops).listIDCounter) ∧
    (∀ (early later : List Op) (r : TodoList),
      (run initStore early).todoLists
        (handlePostNewListRequest r (run initStore (early ++ later))).2.listIDCounter = none) := by
  refine ⟨counter_le_next, keys_bounded, ?_⟩
  intro early later r
  cases hk : (run initStore early).todoLists
      (handlePostNewListRequest r (run initStore (early ++ later))).2.listIDCounter with
  | none => rfl
  | some old =>
    exfalso
    have hsome : ((run initStore early).todoLists
        (handlePostNewListRequest r (run initStore (early ++ later))).2.listIDCounter).isSome
          = true := by rw [hk]; rfl
    have hb := (keys_bounded early _ hsome).2
    have hm := counter_le_run (run initStore early) later
    rw [← run_append] at hm
    simp only [handlePostNewListRequest] at hb
    omega

/-- Witness for C6: after create, delete, create the only key is 2, within 1..counter, and
the identifier 2 of the second create was not a key after the first create. -/
theorem ids_never_reused_witness :
    (1 : Int) ≤ 2 ∧ (2 : Int) ≤ (run initStore [Op.Create ⟨0, str "a", []⟩, Op.Delete 1,
        Op.Create ⟨0, str "b", []⟩]).listIDCounter ∧
    (run initStore [Op.Create ⟨0, str "a", []⟩]).todoLists
      (handlePostNewListRequest ⟨0, str "b", []⟩
        (run initStore ([Op.Create ⟨0, str "a", []⟩] ++ [Op.Delete 1]))).2.listIDCounter = none :=
  ⟨(ids_never_reused.2.1 [Op.Create ⟨0, str "a", []⟩, Op.Delete 1, Op.Create ⟨0, str "b", []⟩] 2
      (by decide)).1,
   (ids_never_reused.2.1 [Op.Create ⟨0, str "a", []⟩, Op.Delete 1, Op.Create ⟨0, str "b", []⟩] 2
      (by decide)).2,
   ids_never_reused.2.2 [Op.Create ⟨0, str "a", []⟩] [Op.Delete 1] ⟨0, str "b", []⟩⟩

/-- C7, as stated, fails: Create stores the record it was given without setting its id
field, so after creating a record whose id field is 0 the record stored under key 1 has id 0;
the stored id is not always the key. -/
theorem stored_id_may_differ_from_key :
    (run initStore [Op.Create ⟨0, str "groceries", []⟩]).todoLists 1
      = some ⟨0, str "groceries", []⟩ ∧
    ¬ (∀ (ops : List Op) (k : Int) (r : TodoList),
        (run initStore ops).todoLists k = some r → r.Id = k) := by
  have h : (run initStore [Op.Create ⟨0, str "groceries", []⟩]).todoLists 1
      = some ⟨0, str "groceries", []⟩ := by decide
  refine ⟨h, fun hall => ?_⟩
  have := hall _ _ _ h
  simp at this

/-- C7, amended: in every store reached from the initial one, a key under which a record is
stored is a positive integer returned by an earlier Create, and Get of that key serializes the
record with id equal to the key; Create stores the given record as it is (its id field is the
one of the request, not the assigned identifier) and Replace stores the given record under
its own id field. -/
theorem live_key_is_assigned_id (ops : List Op) (k : Int) (r : TodoList)
    (h : (run initStore ops).todoLists k = some r) :
    k ∈ createdIDs initStore ops ∧ 0 < k ∧
    handleGetRequest k (run initStore ops)
      = str "\x7b\n\t\t\"id\": " ++ fmtInt k ++ str ",\n\t\t\"title\": \"" ++ r.Title ++
        str "\",\n\t\t\"list\": " ++ formatItemList r ++ str "\n\t\x7d" ∧
    (∀ (s : Store) (q : TodoList),
      (handlePostNewListRequest q s).2.todoLists (handlePostNewListRequest q s).2.listIDCounter
        = some q) ∧
    (∀ (s : Store) (q : TodoList),
      (handlePostListRequest q s).todoLists q.Id = (s.todoLists q.Id).map (fun _ => q)) := by
  have hsome : ((run initStore ops).todoLists k).isSome = true := by rw [h]; rfl
  refine ⟨?_, ?_, ?_, ?_, ?_⟩
  · rcases key_of_run hsome with h1 | h1
    · simp [initStore] at h1
    · exact h1
  · have := (keys_bounded ops k hsome).1
    omega
  · simp only [handleGetRequest, h]
    rfl
  · intro s q
    simp [handlePostNewListRequest]
  · intro s q
    cases hq : s.todoLists q.Id with
    | none => simp [handlePostListRequest, hq]
    | some old => simp [handlePostListRequest, hq]

/-- Witness for C7 amended: the record created first is stored under key 1. -/
theorem live_key_is_assigned_id_witness :
    (1 : Int) ∈ createdIDs initStore [Op.Create ⟨0, str "groceries", []⟩] ∧ (0 : Int) < 1 :=
  have h := live_key_is_assigned_id [Op.Create ⟨0, str "groceries", []⟩] 1
    ⟨0, str "groceries", []⟩ (by decide)
  ⟨h.1, h.2.1⟩

/-! ## Replace requests and error responses -/

theorem handleConnection_replace (unmarshal : GoString → Option TodoList) (s : Store)
    {bytes url body : GoString} {more : List GoString} {listID : Int} {r : TodoList}
    (hline : requestLine bytes = str "POST" :: url :: more) (hid : Sscanf url = some listID)
    (hbody : requestBody (requestLines bytes) = some body) (hjson : unmarshal body = some r) :
    handleConnection unmarshal s (ReadResult.data bytes)
      = if r.Id ≠ listID then (Outcome.response 400 (str "Bad Request") [], s)
        else (Outcome.response 200 (str "OK") [], handlePostListRequest r s) := by
  have h1 : str "POST" ≠ str "GET" := by decide
  simp only [handleConnection, hline, h1, false_and, if_false, Sscanf_ne_new hid, and_false,
    Sscanf_hasPrefix hid, and_self, if_true, hid, hbody, hjson]

/-- Replace route once the handler has extracted a body (the request has a blank line after
at least one header line): for a POST request for `/api/list/<id>` whose body decodes to a
record, when the record's id differs from the id of the path the answer is 400 and the store
is unchanged; when they are equal and the id is not a key the answer is 200 with an empty
body and the store is unchanged; when they are equal and the id is a key the answer is 200
with an empty body and the entry under the id is replaced by the record, nothing else
changing. -/
theorem replace_request_outcomes (unmarshal : GoString → Option TodoList) (s : Store)
    (bytes url body : GoString) (more : List GoString) (listID : Int) (r : TodoList)
    (hline : requestLine bytes = str "POST" :: url :: more) (hid : Sscanf url = some listID)
    (hbody : requestBody (requestLines bytes) = some body) (hjson : unmarshal body = some r) :
    (r.Id ≠ listID →
      handleConnection unmarshal s (ReadResult.data bytes)
        = (Outcome.response 400 (str "Bad Request") [], s)) ∧
    (r.Id = listID → s.todoLists listID = none →
      handleConnection unmarshal s (ReadResult.data bytes)
        = (Outcome.response 200 (str "OK") [], s)) ∧
    (r.Id = listID → (s.todoLists listID).isSome = true →
      (handleConnection unmarshal s (ReadResult.data bytes)).1
        = Outcome.response 200 (str "OK") [] ∧
      (handleConnection unmarshal s (ReadResult.data bytes)).2.listIDCounter
        = s.listIDCounter ∧
      ∀ k, (handleConnection unmarshal s (ReadResult.data bytes)).2.todoLists k
        = if k = listID then some r else s.todoLists k) := by
  have hc := handleConnection_replace unmarshal s hline hid hbody hjson
  refine ⟨?_, ?_, ?_⟩
  · intro hne
    rw [hc, if_pos hne]
  · intro heq habs
    rw [hc, if_neg (not_not.mpr heq)]
    rw [← heq] at habs
    rw [handlePostListRequest_absent habs]
  · intro heq hkey
    rw [hc, if_neg (not_not.mpr heq)]
    rw [← heq] at hkey
    rw [handlePostListRequest_present hkey]
    refine ⟨rfl, rfl, ?_⟩
    intro k
    simp only [Function.update_apply, heq]

theorem requestLine_post_1 :
    requestLine (str "POST /api/list/1 HTTP/1.1\r\nHost: localhost\r\n\r\nBODY")
      = [str "POST", str "/api/list/1", str "HTTP/1.1"] :=
  (requestLine_of_cut (by decide)
    (by decide : cut (str "\r\n") (str "POST /api/list/1 HTTP/1.1\r\nHost: localhost\r\n\r\nBODY")
      = some (str "POST /api/list/1 HTTP/1.1", str "Host: localhost\r\n\r\nBODY"))).trans
    (by decide)

theorem requestBody_post_1 :
    requestBody (requestLines (str "POST /api/list/1 HTTP/1.1\r\nHost: localhost\r\n\r\nBODY"))
      = some (str "BODY") := by
  rw [requestLines_of_cut (by decide)
    (by decide : cut (str "\r\n") (str "POST /api/list/1 HTTP/1.1\r\nHost: localhost\r\n\r\nBODY")
      = some (str "POST /api/list/1 HTTP/1.1", str "Host: localhost\r\n\r\nBODY")),
    requestBody_of_cut _
      (by decide : cut (str "\r\n\r\n") (str "Host: localhost\r\n\r\nBODY")
        = some (str "Host: localhost", str "BODY"))]
  decide

/-- Example for the replace route: `POST /api/list/1` with one header line and a body
decoding to a record of id 2 (mismatch), of id 1 on the initial store (absent), and of id 1 on
a store holding list 1 (replaced). -/
theorem replace_request_outcomes_witness :
    handleConnection (fun _ => some ⟨2, str "groceries", []⟩) initStore
        (ReadResult.data (str "POST /api/list/1 HTTP/1.1\r\nHost: localhost\r\n\r\nBODY"))
      = (Outcome.response 400 (str "Bad Request") [], initStore) ∧
    handleConnection (fun _ => some ⟨1, str "groceries", []⟩) initStore
        (ReadResult.data (str "POST /api/list/1 HTTP/1.1\r\nHost: localhost\r\n\r\nBODY"))
      = (Outcome.response 200 (str "OK") [], initStore) ∧
    (handleConnection (fun _ => some ⟨1, str "groceries", [⟨1, str "milk", false⟩]⟩)
        (handlePostNewListRequest ⟨0, str "groceries", []⟩ initStore).2
        (ReadResult.data (str "POST /api/list/1 HTTP/1.1\r\nHost: localhost\r\n\r\nBODY"))).1
      = Outcome.response 200 (str "OK") [] :=
  ⟨(replace_request_outcomes (fun _ => some ⟨2, str "groceries", []⟩) initStore _ _ _ _ 1 _
      requestLine_post_1 Sscanf_list_1 requestBody_post_1 rfl).1 (by decide),
   (replace_request_outcomes (fun _ => some ⟨1, str "groceries", []⟩) initStore _ _ _ _ 1 _
      requestLine_post_1 Sscanf_list_1 requestBody_post_1 rfl).2.1 rfl rfl,
   ((replace_request_outcomes (fun _ => some ⟨1, str "groceries", [⟨1, str "milk", false⟩]⟩)
      (handlePostNewListRequest ⟨0, str "groceries", []⟩ initStore).2 _ _ _ _ 1 _
      requestLine_post_1 Sscanf_list_1 requestBody_post_1 rfl).2.2 rfl (by decide)).1⟩

theorem handleConnection_store_or_ok (unmarshal : GoString → Option TodoList) (s : Store)
    (rd : ReadResult) :
    (handleConnection unmarshal s rd).2 = s ∨
    ∃ body, (handleConnection unmarshal s rd).1 = Outcome.response 200 (str "OK") body := by
  cases rd with
  | eof => exact Or.inl rfl
  | error => exact Or.inl rfl
  | data bytes =>
    unfold handleConnection
    repeat' split
    all_goals first | exact Or.inl rfl | exact Or.inr ⟨_, rfl⟩

theorem handleConnection_create_bad_body (unmarshal : GoString → Option TodoList) (s : Store)
    {bytes body : GoString} {more : List GoString}
    (hline : requestLine bytes = str "POST" :: str "/api/list/new" :: more)
    (hbody : requestBody (requestLines bytes) = some body) (hjson : unmarshal body = none) :
    handleConnection unmarshal s (ReadResult.data bytes)
      = (Outcome.response 400 (str "Bad Request") [], s) := by
  have h1 : str "POST" ≠ str "GET" := by decide
  simp only [handleConnection, hline, h1, false_and, if_false, and_self, if_true, hbody, hjson]

/-- Error responses: every request answered with a status other than 200 leaves the store
(map and counter) as it was; a read error is answered 500; a POST for `/api/list/new` from
which the handler has extracted a body that does not decode is answered 400 and the counter
is not advanced. -/
theorem error_responses_leave_store (unmarshal : GoString → Option TodoList) (s : Store) :
    (∀ (rd : ReadResult) (code : Int) (msg body : GoString),
      (handleConnection unmarshal s rd).1 = Outcome.response code msg body → code ≠ 200 →
      (handleConnection unmarshal s rd).2 = s) ∧
    handleConnection unmarshal s ReadResult.error
      = (Outcome.response 500 (str "Internal Server Error") [], s) ∧
    (∀ (bytes body : GoString) (more : List GoString),
      requestLine bytes = str "POST" :: str "/api/list/new" :: more →
      requestBody (requestLines bytes) = some body → unmarshal body = none →
      handleConnection unmarshal s (ReadResult.data bytes)
        = (Outcome.response 400 (str "Bad Request") [], s)) := by
  refine ⟨?_, rfl, ?_⟩
  · intro rd code msg body h hne
    rcases handleConnection_store_or_ok unmarshal s rd with h1 | ⟨b, h1⟩
    · exact h1
    · rw [h1] at h
      simp only [Outcome.response.injEq] at h
      exact absurd h.1.symm hne
  · intro bytes body more hline hbody hjson
    exact handleConnection_create_bad_body unmarshal s hline hbody hjson

theorem requestLine_post_new :
    requestLine (str "POST /api/list/new HTTP/1.1\r\nHost: localhost\r\n\r\nBODY")
      = [str "POST", str "/api/list/new", str "HTTP/1.1"] :=
  (requestLine_of_cut (by decide)
    (by decide : cut (str "\r\n")
        (str "POST /api/list/new HTTP/1.1\r\nHost: localhost\r\n\r\nBODY")
      = some (str "POST /api/list/new HTTP/1.1", str "Host: localhost\r\n\r\nBODY"))).trans
    (by decide)

theorem requestBody_post_new :
    requestBody (requestLines (str "POST /api/list/new HTTP/1.1\r\nHost: localhost\r\n\r\nBODY"))
      = some (str "BODY") := by
  rw [requestLines_of_cut (by decide)
    (by decide : cut (str "\r\n")
        (str "POST /api/list/new HTTP/1.1\r\nHost: localhost\r\n\r\nBODY")
      = some (str "POST /api/list/new HTTP/1.1", str "Host: localhost\r\n\r\nBODY")),
    requestBody_of_cut _
      (by decide : cut (str "\r\n\r\n") (str "Host: localhost\r\n\r\nBODY")
        = some (str "Host: localhost", str "BODY"))]
  decide

/-- Example for the error responses: a POST for `/api/list/new` with one header line whose
body does not decode is answered 400 and the store, counter included, stays the initial
one. -/
theorem error_responses_leave_store_witness :
    handleConnection (fun _ => none) initStore
        (ReadResult.data (str "POST /api/list/new HTTP/1.1\r\nHost: localhost\r\n\r\nBODY"))
      = (Outcome.response 400 (str "Bad Request") [], initStore) ∧
    (handleConnection (fun _ => none) initStore
        (ReadResult.data (str "POST /api/list/new HTTP/1.1\r\nHost: localhost\r\n\r\nBODY"))).2
      = initStore :=
  have h := (error_responses_leave_store (fun _ => none) initStore).2.2 _ _ _
    requestLine_post_new requestBody_post_new rfl
  ⟨h, (error_responses_leave_store (fun _ => none) initStore).1 _ 400 (str "Bad Request") []
    (congrArg Prod.fst h) (by decide)⟩

/-! ## Malformed request lines -/

theorem requestLines_of_no_cr {bytes : GoString} (hlen : bytes.length ≤ bufferSize)
    (h : 13 ∉ bytes) :
    requestLines bytes = [bytes ++ List.replicate (bufferSize - bytes.length) 0] := by
  rw [requestLines, requestBuffer_of_le hlen, SplitN2,
    cut_eq_none_of_not_mem (b := 13) (by decide)]
  intro hm
  rw [List.mem_append, List.mem_replicate] at hm
  rcases hm with hm | hm
  · exact h hm
  · exact absurd hm.2 (by decide)

theorem takeWhile_isDigit_zeros (n : Nat) :
    (List.replicate n (0 : UInt8)).takeWhile isDigit = [] := by
  cases n with
  | zero => rfl
  | succ n => rw [List.replicate_succ, List.takeWhile_cons_of_neg (by decide)]

theorem SkipSpace_one_zeros (n : Nat) :
    SkipSpace (49 :: List.replicate n 0) = some (49 :: List.replicate n 0) := by
  match n with
  | 0 => decide
  | 1 => decide
  | n + 2 =>
    rw [List.replicate_succ, List.replicate_succ]
    simp only [SkipSpace]
    rw [if_neg (by decide), if_neg (by decide), if_neg (by decide), if_neg (by decide)]

theorem Sscanf_one_zeros (n : Nat) : Sscanf (str "/api/list/1" ++ List.replicate n 0) = some 1 := by
  have e : str "/api/list/1" ++ List.replicate n 0
      = str "/api/list/" ++ (49 :: List.replicate n 0) := by
    have e1 : str "/api/list/1" = str "/api/list/" ++ [49] := by decide
    rw [e1, List.append_assoc, List.singleton_append]
  have hp : HasPrefix (str "/api/list/" ++ (49 :: List.replicate n 0)) (str "/api/list/")
      = true := by
    rw [HasPrefix, List.isPrefixOf_iff_prefix]
    exact List.prefix_append _ _
  have hd : (str "/api/list/" ++ (49 :: List.replicate n 0)).drop 10
      = 49 :: List.replicate n 0 := by
    rw [List.drop_append_of_le_length (by decide)]
    rfl
  rw [e, Sscanf, if_pos hp, hd, SkipSpace_one_zeros]
  simp only [List.head?_cons, Option.some.injEq]
  have h45 : ¬ ((49 : UInt8) = 45) := by decide
  have h43 : ¬ ((49 : UInt8) = 43) := by decide
  have h49 : isDigit 49 = true := by decide
  simp only [h45, h43, or_self, if_false, List.takeWhile_cons_of_pos h49,
    takeWhile_isDigit_zeros]
  decide

theorem handleConnection_single_token (unmarshal : GoString → Option TodoList) (s : Store)
    {bytes token : GoString} (hline : requestLine bytes = [token]) :
    handleConnection unmarshal s (ReadResult.data bytes) = (Outcome.panic, s) := by
  simp only [handleConnection, hline]

/-- C10 fails on the code: a request of the three bytes `GET` (a request line with a single
token) is not answered at all, the handler fails with an index out of range at
`requestLine[1]`; a request `GET /api/list/1` with no line terminator is answered 200 with the
body of Get(1), not 400. -/
theorem malformed_request_line_not_400 (unmarshal : GoString → Option TodoList) (s : Store) :
    handleConnection unmarshal s (ReadResult.data (str "GET")) = (Outcome.panic, s) ∧
    handleConnection unmarshal s (ReadResult.data (str "GET /api/list/1"))
      = (Outcome.response 200 (str "OK") (handleGetRequest 1 s), s) := by
  constructor
  · have hl : requestLine (str "GET")
        = [str "GET" ++ List.replicate (bufferSize - (str "GET").length) 0] := by
      rw [requestLine, requestLines_of_no_cr (by decide) (by decide), List.headD_cons,
        Split_of_not_mem]
      intro hm
      rw [List.mem_append, List.mem_replicate] at hm
      rcases hm with hm | hm
      · exact absurd hm (by decide)
      · exact absurd hm.2 (by decide)
    exact handleConnection_single_token unmarshal s hl
  · have hl : requestLine (str "GET /api/list/1")
        = [str "GET", str "/api/list/1"
            ++ List.replicate (bufferSize - (str "GET /api/list/1").length) 0] := by
      have e : str "GET /api/list/1" = str "GET" ++ 32 :: str "/api/list/1" := by decide
      rw [requestLine, requestLines_of_no_cr (by decide) (by decide), List.headD_cons]
      rw [show str "GET /api/list/1"
            ++ List.replicate (bufferSize - (str "GET /api/list/1").length) 0
          = str "GET" ++ 32 :: (str "/api/list/1"
            ++ List.replicate (bufferSize - (str "GET /api/list/1").length) 0) by
        rw [e]; simp only [List.append_assoc, List.cons_append]]
      rw [Split_append_sep _ (by decide), Split_of_not_mem]
      intro hm
      rw [List.mem_append, List.mem_replicate] at hm
      rcases hm with hm | hm
      · exact absurd hm (by decide)
      · exact absurd hm.2 (by decide)
    exact handleConnection_get unmarshal s hl (Sscanf_one_zeros _)

/-! ## Request bodies -/

theorem cut_skip {c : UInt8} {cs a : GoString} (l : GoString) (h : c ∉ a) :
    cut (c :: cs) (a ++ l) = (cut (c :: cs) l).map (fun p => (a ++ p.1, p.2)) := by
  induction a with
  | nil =>
    simp only [List.nil_append]
    cases cut (c :: cs) l <;> rfl
  | cons x xs ih =>
    have hne : ¬ c = x := fun e => h (e ▸ List.mem_cons_self _ _)
    have hx : ¬ (c :: cs).isPrefixOf (x :: (xs ++ l)) = true := by
      simp [List.isPrefixOf, hne]
    rw [List.cons_append, cut, if_neg hx, ih (fun m => h (List.mem_cons_of_mem _ m))]
    cases cut (c :: cs) l <;> rfl

theorem Join_cons_cons (a b : GoString) (l : List GoString) (sep : GoString) :
    Join (a :: b :: l) sep = a ++ sep ++ Join (b :: l) sep := by
  simp [Join, List.intercalate, List.intersperse]

theorem Join_singleton (a sep : GoString) : Join [a] sep = a := by
  simp [Join, List.intercalate, List.intersperse]

theorem cut_blank_line_after_crlf (y : UInt8) (l : GoString) (hy : y ≠ 13) :
    cut (str "\r\n\r\n") (13 :: 10 :: y :: l)
      = (cut (str "\r\n\r\n") (y :: l)).map (fun p => (13 :: 10 :: p.1, p.2)) := by
  have e : str "\r\n\r\n" = [13, 10, 13, 10] := by decide
  have hy2 : ¬ (13 : UInt8) = y := fun h => hy h.symm
  have h1 : ¬ ([13, 10, 13, 10] : GoString).isPrefixOf (13 :: 10 :: y :: l) = true := by
    simp [List.isPrefixOf, hy2]
  have h2 : ¬ ([13, 10, 13, 10] : GoString).isPrefixOf (10 :: y :: l) = true := by
    simp [List.isPrefixOf]
  rw [e, cut, if_neg h1, cut, if_neg h2]
  cases cut [13, 10, 13, 10] (y :: l) <;> rfl

theorem cut_header_lines (headers : List GoString) (body : GoString) (hne : headers ≠ [])
    (hh : ∀ h ∈ headers, h ≠ [] ∧ 13 ∉ h) :
    cut (str "\r\n\r\n") (Join headers (str "\r\n") ++ str "\r\n\r\n" ++ body)
      = some (Join headers (str "\r\n"), body) := by
  have e : str "\r\n\r\n" = 13 :: [10, 13, 10] := by decide
  induction headers with
  | nil => exact absurd rfl hne
  | cons h hs ih =>
    cases hs with
    | nil =>
      rw [Join_singleton, e]
      exact cut_at_first body 13 [10, 13, 10] (hh h (List.mem_cons_self _ _)).2
    | cons h2 hs2 =>
      have ih2 := ih (by simp) (fun x hx => hh x (List.mem_cons_of_mem _ hx))
      obtain ⟨y, ys, hy⟩ := List.exists_cons_of_ne_nil
        (hh h2 (List.mem_cons_of_mem _ (List.mem_cons_self _ _))).1
      have hy13 : y ≠ 13 := by
        intro e13
        apply (hh h2 (List.mem_cons_of_mem _ (List.mem_cons_self _ _))).2
        rw [hy, e13]
        exact List.mem_cons_self _ _
      have hstart : ∃ t, Join (h2 :: hs2) (str "\r\n") = y :: t := by
        cases hs2 with
        | nil => exact ⟨ys, by rw [Join_singleton, hy]⟩
        | cons h3 hs3 => exact ⟨ys ++ str "\r\n" ++ Join (h3 :: hs3) (str "\r\n"), by
            rw [Join_cons_cons, hy]; rfl⟩
      obtain ⟨t, ht⟩ := hstart
      have ecrlf : str "\r\n" = [13, 10] := by decide
      have ih3 : cut (str "\r\n\r\n") (y :: (t ++ (str "\r\n\r\n" ++ body)))
          = some (y :: t, body) := by
        rw [ht] at ih2
        simp only [List.append_assoc, List.cons_append] at ih2
        exact ih2
      have hshape : Join (h :: h2 :: hs2) (str "\r\n") ++ str "\r\n\r\n" ++ body
          = h ++ (13 :: 10 :: y :: (t ++ (str "\r\n\r\n" ++ body))) := by
        rw [Join_cons_cons, ht, ecrlf]
        simp only [List.append_assoc, List.cons_append, List.nil_append]
      have hres : Join (h :: h2 :: hs2) (str "\r\n") = h ++ 13 :: 10 :: y :: t := by
        rw [Join_cons_cons, ht, ecrlf]
        simp only [List.append_assoc, List.cons_append, List.nil_append]
      rw [hshape, hres]
      conv => lhs; rw [e]
      rw [cut_skip _ (hh h (List.mem_cons_self _ _)).2, ← e,
        cut_blank_line_after_crlf y _ hy13, ih3]
      rfl

theorem requestBody_header_lines (line body : GoString) (headers : List GoString)
    (h13 : 13 ∉ line) (hne : headers ≠ []) (hh : ∀ h ∈ headers, h ≠ [] ∧ 13 ∉ h)
    (hlen : (line ++ str "\r\n" ++ (Join headers (str "\r\n") ++ str "\r\n\r\n" ++ body)).length
      ≤ bufferSize) :
    requestBody (requestLines
        (line ++ str "\r\n" ++ (Join headers (str "\r\n") ++ str "\r\n\r\n" ++ body)))
      = some (Trim body 0) := by
  rw [requestLines_of_cut hlen (cut_at_first _ 13 [10] h13),
    requestBody_of_cut _ (cut_header_lines headers body hne hh)]

theorem Trim_of_head_ne_zero (body : GoString) (h : body.head? ≠ some 0) :
    Trim body 0 = body.rdropWhile (fun b => b == 0) := by
  unfold Trim
  cases body with
  | nil => rfl
  | cons b bs =>
    have hb : ¬ ((b == 0) = true) := by
      intro hb0
      apply h
      rw [List.head?_cons, eq_of_beq hb0]
    rw [List.dropWhile_cons, if_neg hb]

theorem handleConnection_create (unmarshal : GoString → Option TodoList) (s : Store)
    {bytes body : GoString} {more : List GoString}
    (hline : requestLine bytes = str "POST" :: str "/api/list/new" :: more)
    (hbody : requestBody (requestLines bytes) = some body) :
    handleConnection unmarshal s (ReadResult.data bytes)
      = match unmarshal body with
        | none => (Outcome.response 400 (str "Bad Request") [], s)
        | some newListRequest =>
          (Outcome.response 200 (str "OK") (handlePostNewListRequest newListRequest s).1,
           (handlePostNewListRequest newListRequest s).2) := by
  have h1 : str "POST" ≠ str "GET" := by decide
  simp only [handleConnection, hline, h1, false_and, if_false, and_self, if_true, hbody]

theorem handleConnection_no_body (unmarshal : GoString → Option TodoList) (s : Store)
    {bytes : GoString} {more : List GoString}
    (hline : requestLine bytes = str "POST" :: str "/api/list/new" :: more)
    (hbody : requestBody (requestLines bytes) = none) :
    handleConnection unmarshal s (ReadResult.data bytes) = (Outcome.panic, s) := by
  have h1 : str "POST" ≠ str "GET" := by decide
  simp only [handleConnection, hline, h1, false_and, if_false, and_self, if_true, hbody]

theorem requestBody_no_blank_line (line rest : GoString)
    (h : cut (str "\r\n\r\n") rest = none) : requestBody [line, rest] = none := by
  simp only [requestBody, SplitN2, h]

theorem requestLine_post_new_nul :
    requestLine (str "POST /api/list/new HTTP/1.1\r\nHost: localhost\r\n\r\n\x00AB")
      = [str "POST", str "/api/list/new", str "HTTP/1.1"] :=
  (requestLine_of_cut (by decide)
    (by decide : cut (str "\r\n")
        (str "POST /api/list/new HTTP/1.1\r\nHost: localhost\r\n\r\n\x00AB")
      = some (str "POST /api/list/new HTTP/1.1", str "Host: localhost\r\n\r\n\x00AB"))).trans
    (by decide)

theorem requestBody_post_new_nul :
    requestBody (requestLines
        (str "POST /api/list/new HTTP/1.1\r\nHost: localhost\r\n\r\n\x00AB"))
      = some (str "AB") := by
  rw [requestLines_of_cut (by decide)
    (by decide : cut (str "\r\n")
        (str "POST /api/list/new HTTP/1.1\r\nHost: localhost\r\n\r\n\x00AB")
      = some (str "POST /api/list/new HTTP/1.1", str "Host: localhost\r\n\r\n\x00AB")),
    requestBody_of_cut _
      (by decide : cut (str "\r\n\r\n") (str "Host: localhost\r\n\r\n\x00AB")
        = some (str "Host: localhost", str "\x00AB"))]
  decide

theorem requestLine_post_new_bare :
    requestLine (str "POST /api/list/new HTTP/1.1\r\n\r\nAB")
      = [str "POST", str "/api/list/new", str "HTTP/1.1"] :=
  (requestLine_of_cut (by decide)
    (by decide : cut (str "\r\n") (str "POST /api/list/new HTTP/1.1\r\n\r\nAB")
      = some (str "POST /api/list/new HTTP/1.1", str "\r\nAB"))).trans (by decide)

theorem requestBody_post_new_bare :
    requestBody (requestLines (str "POST /api/list/new HTTP/1.1\r\n\r\nAB")) = none := by
  rw [requestLines_of_cut (by decide)
    (by decide : cut (str "\r\n") (str "POST /api/list/new HTTP/1.1\r\n\r\nAB")
      = some (str "POST /api/list/new HTTP/1.1", str "\r\nAB"))]
  apply requestBody_no_blank_line
  have e : str "\r\nAB" = [13, 10, 65, 66] := by decide
  rw [e]
  simp only [List.cons_append, List.nil_append]
  rw [cut_blank_line_after_crlf 65 _ (by decide),
    cut_eq_none_of_not_mem (b := 13) (by decide)]
  · rfl
  · intro hm
    simp only [List.mem_cons, List.mem_replicate] at hm
    rcases hm with hm | hm | hm
    · exact absurd hm (by decide)
    · exact absurd hm (by decide)
    · exact absurd hm.2 (by decide)

/-! ## Requests longer than the read buffer -/

theorem requestBuffer_truncated (pre : GoString) (a : UInt8) (n : Nat)
    (hlen : pre.length ≤ bufferSize) (hbig : bufferSize ≤ pre.length + n) :
    requestBuffer (pre ++ List.replicate n a)
      = pre ++ List.replicate (bufferSize - pre.length) a := by
  have ht : (pre ++ List.replicate n a).take bufferSize
      = pre ++ List.replicate (bufferSize - pre.length) a := by
    rw [List.take_append_eq_append_take, List.take_of_length_le hlen, List.take_replicate,
      Nat.min_eq_left (by omega)]
  have hl : (pre ++ List.replicate (bufferSize - pre.length) a).length = bufferSize := by
    rw [List.length_append, List.length_replicate]
    omega
  rw [requestBuffer, ht, hl, Nat.sub_self, List.replicate_zero, List.append_nil]

theorem Trim_replicate (a : UInt8) (m : Nat) (ha : a ≠ 0) :
    Trim (List.replicate m a) 0 = List.replicate m a := by
  have hb : ¬ ((a == 0) = true) := fun h => ha (eq_of_beq h)
  cases m with
  | zero => rfl
  | succ m =>
    have hd : (List.replicate (m + 1) a).dropWhile (fun b => b == 0)
        = List.replicate (m + 1) a := by
      rw [List.replicate_succ, List.dropWhile_cons, if_neg hb]
    rw [Trim, hd, List.rdropWhile, List.reverse_replicate, hd, List.reverse_replicate]

theorem requestBody_truncated (pre line rest hdrs : GoString) (a : UInt8) (n : Nat)
    (ha : a ≠ 0) (h1 : cut (str "\r\n") pre = some (line, rest))
    (h2 : cut (str "\r\n\r\n") rest = some (hdrs, []))
    (hlen : pre.length ≤ bufferSize) (hbig : bufferSize ≤ pre.length + n) :
    requestBody (requestLines (pre ++ List.replicate n a))
      = some (List.replicate (bufferSize - pre.length) a) := by
  rw [requestLines, requestBuffer_truncated pre a n hlen hbig, SplitN2, cut_append h1]
  simp only []
  rw [requestBody, SplitN2, cut_append h2]
  simp only [List.nil_append, Trim_replicate _ _ ha]

theorem requestBody_one_mebibyte_body :
    requestBody (requestLines
        (str "POST /api/list/new HTTP/1.1\r\nHost: localhost\r\n\r\n"
          ++ List.replicate 1048576 65))
      = some (List.replicate 1048528 65) := by
  have h := requestBody_truncated
    (str "POST /api/list/new HTTP/1.1\r\nHost: localhost\r\n\r\n")
    (str "POST /api/list/new HTTP/1.1") (str "Host: localhost\r\n\r\n") (str "Host: localhost")
    65 1048576 (by decide) (by decide) (by decide) (by decide) (by decide)
  have e : bufferSize - (str "POST /api/list/new HTTP/1.1\r\nHost: localhost\r\n\r\n").length
      = 1048528 := by decide
  rw [e] at h
  exact h

theorem replicate_length_ne (a : UInt8) {m n : Nat} (h : m ≠ n) :
    List.replicate m a ≠ List.replicate n a := by
  intro e
  have := congrArg List.length e
  rw [List.length_replicate, List.length_replicate] at this
  exact h this

/-- C11, as stated, fails: in a POST request whose body begins with a NUL byte (here the body
`\x00AB` after one header line) the JSON parser is handed `AB`, the leading NUL removed, not
the body with only trailing NUL bytes removed; a POST request with no header line
(`POST /api/list/new HTTP/1.1\r\n\r\nAB`) is not handled like the others, the handler fails
with an index out of range before any parsing; and of a request longer than the read buffer
(one header line and a body of 1048576 bytes `A`) the parser is handed only the 1048528 bytes
of the body that fit the buffer. -/
theorem body_not_only_trailing_trimmed :
    requestBody (requestLines
        (str "POST /api/list/new HTTP/1.1\r\nHost: localhost\r\n\r\n\x00AB"))
      = some (str "AB") ∧
    (str "\x00AB").rdropWhile (fun b => b == 0) = str "\x00AB" ∧
    str "AB" ≠ str "\x00AB" ∧
    handleConnection (fun b => if b = str "AB" then some ⟨0, str "t", []⟩ else none) initStore
        (ReadResult.data (str "POST /api/list/new HTTP/1.1\r\nHost: localhost\r\n\r\n\x00AB"))
      = (Outcome.response 200 (str "OK") (str "\x7b\"id\":1\x7d"),
          (handlePostNewListRequest ⟨0, str "t", []⟩ initStore).2) ∧
    requestBody (requestLines (str "POST /api/list/new HTTP/1.1\r\n\r\nAB")) = none ∧
    handleConnection (fun _ => some ⟨0, str "t", []⟩) initStore
        (ReadResult.data (str "POST /api/list/new HTTP/1.1\r\n\r\nAB"))
      = (Outcome.panic, initStore) ∧
    requestBody (requestLines
        (str "POST /api/list/new HTTP/1.1\r\nHost: localhost\r\n\r\n"
          ++ List.replicate 1048576 65))
      = some (List.replicate 1048528 65) ∧
    List.replicate 1048528 (65 : UInt8) ≠ List.replicate 1048576 65 := by
  refine ⟨requestBody_post_new_nul, by decide, by decide, ?_, requestBody_post_new_bare,
    handleConnection_no_body _ _ requestLine_post_new_bare requestBody_post_new_bare,
    requestBody_one_mebibyte_body, replicate_length_ne 65 (by decide)⟩
  rw [handleConnection_create _ _ requestLine_post_new_nul requestBody_post_new_nul]
  rfl

/-! ## Lines without a line terminator -/

theorem cut_cons_of_not_prefix (sep : GoString) (c : UInt8) (l : GoString)
    (h : sep.isPrefixOf (c :: l) = false) :
    cut sep (c :: l) = (cut sep l).map (fun p => (c :: p.1, p.2)) := by
  rw [cut, h]
  simp only [Bool.false_eq_true, if_false]
  cases cut sep l <;> rfl

theorem crlf_not_prefix_in_line {x : UInt8} {xs : GoString}
    (hinf : ¬ ([13, 10] : GoString) <:+: x :: xs) (cs t : GoString) :
    (13 :: 10 :: cs).isPrefixOf (x :: (xs ++ 13 :: t)) = false := by
  cases xs with
  | nil => simp [List.isPrefixOf]
  | cons y ys =>
    by_cases hx : x = 13
    · by_cases hy : y = 10
      · exfalso
        apply hinf
        rw [hx, hy]
        exact (List.prefix_append [13, 10] ys).isInfix
      · have hy2 : ¬ (10 : UInt8) = y := fun e => hy e.symm
        simp [List.isPrefixOf, hy2]
    · have hx2 : ¬ (13 : UInt8) = x := fun e => hx e.symm
      simp [List.isPrefixOf, hx2]

theorem not_infix_tail {x : UInt8} {xs : GoString}
    (hinf : ¬ ([13, 10] : GoString) <:+: x :: xs) : ¬ ([13, 10] : GoString) <:+: xs :=
  fun h => hinf (List.infix_cons h)

theorem cut_line_then_sep (line : GoString) (cs t : GoString)
    (hinf : ¬ ([13, 10] : GoString) <:+: line) :
    cut (13 :: 10 :: cs) (line ++ (13 :: 10 :: cs) ++ t) = some (line, t) := by
  induction line with
  | nil =>
    have hp : (13 :: 10 :: cs).isPrefixOf (13 :: (10 :: cs ++ t)) = true := by
      rw [List.isPrefixOf_iff_prefix]
      exact List.prefix_append (13 :: 10 :: cs) t
    rw [List.nil_append, List.cons_append, cut, if_pos hp, ← List.cons_append, List.drop_left]
  | cons x xs ih =>
    have hnp := crlf_not_prefix_in_line hinf cs (10 :: cs ++ t)
    have e : x :: xs ++ (13 :: 10 :: cs) ++ t = x :: (xs ++ 13 :: (10 :: cs ++ t)) := by
      simp only [List.cons_append, List.append_assoc]
    have e2 : xs ++ 13 :: (10 :: cs ++ t) = xs ++ (13 :: 10 :: cs) ++ t := by
      simp only [List.cons_append, List.append_assoc]
    rw [e, cut_cons_of_not_prefix _ _ _ hnp, e2, ih (not_infix_tail hinf)]
    rfl

theorem cut_blank_skip_line (line X : GoString)
    (hinf : ¬ ([13, 10] : GoString) <:+: line) (hX : ¬ ([13, 10] : GoString) <+: X) :
    cut [13, 10, 13, 10] (line ++ 13 :: 10 :: X)
      = (cut [13, 10, 13, 10] X).map (fun p => (line ++ 13 :: 10 :: p.1, p.2)) := by
  induction line with
  | nil =>
    have h1 : ([13, 10, 13, 10] : GoString).isPrefixOf (13 :: 10 :: X) = false := by
      cases hb : ([13, 10, 13, 10] : GoString).isPrefixOf (13 :: 10 :: X) with
      | false => rfl
      | true =>
        exfalso
        apply hX
        rw [List.isPrefixOf_iff_prefix] at hb
        obtain ⟨t, ht⟩ := hb
        simp only [List.cons_append, List.cons.injEq, true_and] at ht
        exact ⟨t, by simpa using ht⟩
    have h2 : ([13, 10, 13, 10] : GoString).isPrefixOf (10 :: X) = false := by
      simp [List.isPrefixOf]
    rw [List.nil_append, cut_cons_of_not_prefix _ _ _ h1, cut_cons_of_not_prefix _ _ _ h2]
    cases cut [13, 10, 13, 10] X <;> rfl
  | cons x xs ih =>
    have hnp := crlf_not_prefix_in_line hinf [13, 10] (10 :: X)
    rw [List.cons_append, cut_cons_of_not_prefix _ _ _ hnp, ih (not_infix_tail hinf)]
    cases cut [13, 10, 13, 10] X <;> rfl

theorem line_start_not_crlf {h : GoString} (hne : h ≠ [])
    (hinf : ¬ ([13, 10] : GoString) <:+: h) (t : GoString) :
    ¬ ([13, 10] : GoString) <+: h ++ 13 :: t := by
  intro hp
  obtain ⟨y, ys, rfl⟩ := List.exists_cons_of_ne_nil hne
  rw [← List.isPrefixOf_iff_prefix] at hp
  have := crlf_not_prefix_in_line hinf [] t
  rw [List.cons_append] at hp
  rw [this] at hp
  cases hp

theorem cut_header_block (headers : List GoString) (body : GoString) (hne : headers ≠ [])
    (hh : ∀ h ∈ headers, h ≠ [] ∧ ¬ ([13, 10] : GoString) <:+: h) :
    cut [13, 10, 13, 10] (Join headers [13, 10] ++ [13, 10, 13, 10] ++ body)
      = some (Join headers [13, 10], body) := by
  induction headers with
  | nil => exact absurd rfl hne
  | cons h hs ih =>
    cases hs with
    | nil =>
      rw [Join_singleton]
      exact cut_line_then_sep h [13, 10] body (hh h (List.mem_cons_self _ _)).2
    | cons h2 hs2 =>
      have ih2 := ih (by simp) (fun x hx => hh x (List.mem_cons_of_mem _ hx))
      have hh2 := hh h2 (List.mem_cons_of_mem _ (List.mem_cons_self _ _))
      have hform : ∃ t, Join (h2 :: hs2) [13, 10] ++ [13, 10, 13, 10] ++ body
          = h2 ++ 13 :: t := by
        cases hs2 with
        | nil => exact ⟨10 :: 13 :: 10 :: body, by rw [Join_singleton]; simp⟩
        | cons h3 hs3 =>
          exact ⟨10 :: (Join (h3 :: hs3) [13, 10] ++ [13, 10, 13, 10] ++ body), by
            rw [Join_cons_cons]; simp⟩
      obtain ⟨t, ht⟩ := hform
      have hX : ¬ ([13, 10] : GoString)
          <+: Join (h2 :: hs2) [13, 10] ++ [13, 10, 13, 10] ++ body := by
        rw [ht]
        exact line_start_not_crlf hh2.1 hh2.2 t
      have e : Join (h :: h2 :: hs2) [13, 10] ++ [13, 10, 13, 10] ++ body
          = h ++ 13 :: 10 :: (Join (h2 :: hs2) [13, 10] ++ [13, 10, 13, 10] ++ body) := by
        rw [Join_cons_cons]
        simp only [List.append_assoc, List.cons_append, List.nil_append]
      rw [e, cut_blank_skip_line h _ (hh h (List.mem_cons_self _ _)).2 hX, ih2, Join_cons_cons]
      simp only [Option.map_some', List.append_assoc, List.cons_append, List.nil_append]

theorem requestBody_header_block (line body : GoString) (headers : List GoString)
    (hline : ¬ str "\r\n" <:+: line) (hne : headers ≠ [])
    (hh : ∀ h ∈ headers, h ≠ [] ∧ ¬ str "\r\n" <:+: h)
    (hlen : (line ++ str "\r\n" ++ (Join headers (str "\r\n") ++ str "\r\n\r\n" ++ body)).length
      ≤ bufferSize) :
    cut (str "\r\n")
        (line ++ str "\r\n" ++ (Join headers (str "\r\n") ++ str "\r\n\r\n" ++ body))
      = some (line, Join headers (str "\r\n") ++ str "\r\n\r\n" ++ body) ∧
    requestBody (requestLines
        (line ++ str "\r\n" ++ (Join headers (str "\r\n") ++ str "\r\n\r\n" ++ body)))
      = some (Trim body 0) := by
  have e2 : str "\r\n" = [13, 10] := by decide
  have e4 : str "\r\n\r\n" = [13, 10, 13, 10] := by decide
  have hline2 : ¬ ([13, 10] : GoString) <:+: line := by
    rw [← e2]
    exact hline
  have hh2 : ∀ h ∈ headers, h ≠ [] ∧ ¬ ([13, 10] : GoString) <:+: h := by
    intro h hm
    rw [← e2]
    exact hh h hm
  have hc : cut (str "\r\n")
      (line ++ str "\r\n" ++ (Join headers (str "\r\n") ++ str "\r\n\r\n" ++ body))
        = some (line, Join headers (str "\r\n") ++ str "\r\n\r\n" ++ body) := by
    rw [e2, e4]
    exact cut_line_then_sep line [] _ hline2
  have hb : cut (str "\r\n\r\n") (Join headers (str "\r\n") ++ str "\r\n\r\n" ++ body)
      = some (Join headers (str "\r\n"), body) := by
    rw [e2, e4]
    exact cut_header_block headers body hne hh2
  exact ⟨hc, by rw [requestLines_of_cut hlen hc, requestBody_of_cut _ hb]⟩

/-- C11, amended: for every POST request that the single read returns whole (so of at most
1048576 bytes, the size of the read buffer) and that is made of a request line, one or more
non-empty header lines, a blank line and a body, where the request line and the header lines
contain no line terminator `\r\n`, the body handed to the JSON parser is everything after the
first blank line with the NUL bytes at both of its ends removed; when the body does not begin
with a NUL byte this is the body with only the trailing NUL bytes removed.  Both POST routes
decode exactly that text. -/
theorem request_body_trimmed (unmarshal : GoString → Option TodoList) (s : Store)
    (line body : GoString) (headers : List GoString)
    (hline : ¬ str "\r\n" <:+: line) (hne : headers ≠ [])
    (hh : ∀ h ∈ headers, h ≠ [] ∧ ¬ str "\r\n" <:+: h)
    (hlen : (line ++ str "\r\n" ++ (Join headers (str "\r\n") ++ str "\r\n\r\n" ++ body)).length
      ≤ bufferSize) :
    requestBody (requestLines
        (line ++ str "\r\n" ++ (Join headers (str "\r\n") ++ str "\r\n\r\n" ++ body)))
      = some ((body.dropWhile (fun b => b == 0)).rdropWhile (fun b => b == 0)) ∧
    (body.head? ≠ some 0 →
      requestBody (requestLines
          (line ++ str "\r\n" ++ (Join headers (str "\r\n") ++ str "\r\n\r\n" ++ body)))
        = some (body.rdropWhile (fun b => b == 0))) ∧
    (∀ more : List GoString, Split 32 line = str "POST" :: str "/api/list/new" :: more →
      handleConnection unmarshal s (ReadResult.data
          (line ++ str "\r\n" ++ (Join headers (str "\r\n") ++ str "\r\n\r\n" ++ body)))
        = match unmarshal (Trim body 0) with
          | none => (Outcome.response 400 (str "Bad Request") [], s)
          | some newListRequest =>
            (Outcome.response 200 (str "OK") (handlePostNewListRequest newListRequest s).1,
             (handlePostNewListRequest newListRequest s).2)) ∧
    (∀ (url : GoString) (more : List GoString) (listID : Int) (r : TodoList),
      Split 32 line = str "POST" :: url :: more → Sscanf url = some listID →
      unmarshal (Trim body 0) = some r →
      handleConnection unmarshal s (ReadResult.data
          (line ++ str "\r\n" ++ (Join headers (str "\r\n") ++ str "\r\n\r\n" ++ body)))
        = if r.Id ≠ listID then (Outcome.response 400 (str "Bad Request") [], s)
          else (Outcome.response 200 (str "OK") [], handlePostListRequest r s)) := by
  obtain ⟨hc, hb⟩ := requestBody_header_block line body headers hline hne hh hlen
  have hl : requestLine
      (line ++ str "\r\n" ++ (Join headers (str "\r\n") ++ str "\r\n\r\n" ++ body))
        = Split 32 line := requestLine_of_cut hlen hc
  refine ⟨hb, ?_, ?_, ?_⟩
  · intro h0
    rw [hb, Trim_of_head_ne_zero body h0]
  · intro more hs
    exact handleConnection_create unmarshal s (hl.trans hs) hb
  · intro url more listID r hs hid hjson
    exact handleConnection_replace unmarshal s (hl.trans hs) hid hb hjson

/-- Witness for C11 amended: a create request with one header line and the body `AB` followed
by two NUL bytes. -/
theorem request_body_trimmed_witness :
    requestBody (requestLines
        (str "POST /api/list/new HTTP/1.1" ++ str "\r\n"
          ++ (Join [str "Host: localhost"] (str "\r\n") ++ str "\r\n\r\n" ++ str "AB\x00\x00")))
      = some (str "AB") :=
  ((request_body_trimmed (fun _ => none) initStore (str "POST /api/list/new HTTP/1.1")
      (str "AB\x00\x00") [str "Host: localhost"] (by decide) (by decide) (by decide)
      (by decide)).2.1 (by decide)).trans (by decide)

/-! ## Identifier routes -/

theorem handleConnection_get_bad_id (unmarshal : GoString → Option TodoList) (s : Store)
    {bytes url : GoString} {more : List GoString}
    (hline : requestLine bytes = str "GET" :: url :: more)
    (hp : HasPrefix url (str "/api/list") = true) (hid : Sscanf url = none) :
    handleConnection unmarshal s (ReadResult.data bytes)
      = (Outcome.response 400 (str "Bad Request") [], s) := by
  simp only [handleConnection, hline, hp, hid, and_self, if_true]

theorem handleConnection_delete_bad_id (unmarshal : GoString → Option TodoList) (s : Store)
    {bytes url : GoString} {more : List GoString}
    (hline : requestLine bytes = str "DELETE" :: url :: more)
    (hp : HasPrefix url (str "/api/list") = true) (hid : Sscanf url = none) :
    handleConnection unmarshal s (ReadResult.data bytes)
      = (Outcome.response 400 (str "Bad Request") [], s) := by
  have h1 : str "DELETE" ≠ str "GET" := by decide
  have h2 : str "DELETE" ≠ str "POST" := by decide
  simp only [handleConnection, hline, h1, h2, false_and, if_false, hp, hid, and_self, if_true]

theorem SkipSpace_of_ascii {b : UInt8} (rest : GoString) (hlt : b.toNat < 128)
    (h10 : b ≠ 10) (hsp : b ≠ 9 ∧ b ≠ 11 ∧ b ≠ 12 ∧ b ≠ 13 ∧ b ≠ 32) :
    SkipSpace (b :: rest) = some (b :: rest) := by
  have ne : ∀ c : UInt8, 128 ≤ c.toNat → ¬ b = c := by
    intro c hc hbc
    rw [hbc] at hlt
    omega
  have nC2 := ne 0xC2 (by decide)
  have nE1 := ne 0xE1 (by decide)
  have nE2 := ne 0xE2 (by decide)
  have nE3 := ne 0xE3 (by decide)
  obtain ⟨n9, n11, n12, n13, n32⟩ := hsp
  match rest with
  | [] => simp [SkipSpace, h10, n9, n11, n12, n13, n32]
  | [b2] => simp [SkipSpace, h10, n9, n11, n12, n13, n32, nC2]
  | b2 :: b3 :: rest3 =>
    simp [SkipSpace, h10, n9, n11, n12, n13, n32, nC2, nE1, nE2, nE3]

theorem Sscanf_none_of_no_slash {url : GoString}
    (h : HasPrefix url (str "/api/list/") = false) : Sscanf url = none := by
  simp only [Sscanf, h, Bool.false_eq_true, if_false]

theorem Sscanf_none_of_nondigit (b : UInt8) (rest : GoString) (hlt : b.toNat < 128)
    (hd : isDigit b = false) (hsign : b ≠ 43 ∧ b ≠ 45)
    (hsp : b ≠ 9 ∧ b ≠ 11 ∧ b ≠ 12 ∧ b ≠ 13 ∧ b ≠ 32) :
    Sscanf (str "/api/list/" ++ b :: rest) = none := by
  have hp : HasPrefix (str "/api/list/" ++ b :: rest) (str "/api/list/") = true := by
    rw [HasPrefix, List.isPrefixOf_iff_prefix]
    exact List.prefix_append _ _
  have hdrop : (str "/api/list/" ++ b :: rest).drop 10 = b :: rest := by
    rw [List.drop_append_of_le_length (by decide)]
    rfl
  rw [Sscanf, if_pos hp, hdrop]
  by_cases h10 : b = 10
  · have : SkipSpace (b :: rest) = none := by
      rw [h10]
      match rest with
      | [] => simp [SkipSpace]
      | [b2] => simp [SkipSpace]
      | b2 :: b3 :: rest3 => simp [SkipSpace]
    rw [this]
  · rw [SkipSpace_of_ascii rest hlt h10 hsp]
    have h45 : ¬ b = 45 := hsign.2
    have h43 : ¬ b = 43 := hsign.1
    simp only [List.head?_cons, Option.some.injEq, h45, h43, or_self, if_false,
      List.takeWhile_cons, hd, Bool.false_eq_true, if_true]

theorem requestLine_get_12abc :
    requestLine (str "GET /api/list/12abc HTTP/1.1\r\n\r\n")
      = [str "GET", str "/api/list/12abc", str "HTTP/1.1"] :=
  (requestLine_of_cut (by decide)
    (by decide : cut (str "\r\n") (str "GET /api/list/12abc HTTP/1.1\r\n\r\n")
      = some (str "GET /api/list/12abc HTTP/1.1", str "\r\n"))).trans (by decide)

theorem requestLine_get_big :
    requestLine (str "GET /api/list/9223372036854775808 HTTP/1.1\r\n\r\n")
      = [str "GET", str "/api/list/9223372036854775808", str "HTTP/1.1"] :=
  (requestLine_of_cut (by decide)
    (by decide : cut (str "\r\n") (str "GET /api/list/9223372036854775808 HTTP/1.1\r\n\r\n")
      = some (str "GET /api/list/9223372036854775808 HTTP/1.1", str "\r\n"))).trans (by decide)

theorem path_12abc_not_decimal (n : Int) :
    str "/api/list/12abc" ≠ str "/api/list/" ++ fmtInt n := by
  intro h
  have e : str "/api/list/12abc" = str "/api/list/" ++ str "12abc" := by decide
  rw [e] at h
  have h2 := List.append_cancel_left h
  have hm : (97 : UInt8) ∈ fmtInt n := by
    rw [← h2]
    decide
  rcases fmtInt_mem hm with h3 | h3
  · exact absurd h3 (by decide)
  · exact absurd h3 (by decide)

/-- C12, as stated, fails in both directions: the path `/api/list/12abc` is not `/api/list/`
followed by a decimal integer, yet the GET request is answered 200 with the body of Get(12);
the path `/api/list/9223372036854775808` is `/api/list/` followed by a decimal integer, yet
the GET request is answered 400, as the integer does not fit the `int` type. -/
theorem id_path_not_exact_decimal :
    handleConnection (fun _ => none) initStore
        (ReadResult.data (str "GET /api/list/12abc HTTP/1.1\r\n\r\n"))
      = (Outcome.response 200 (str "OK") (handleGetRequest 12 initStore), initStore) ∧
    (∀ n : Int, str "/api/list/12abc" ≠ str "/api/list/" ++ fmtInt n) ∧
    handleConnection (fun _ => none) initStore
        (ReadResult.data (str "GET /api/list/9223372036854775808 HTTP/1.1\r\n\r\n"))
      = (Outcome.response 400 (str "Bad Request") [], initStore) ∧
    str "/api/list/9223372036854775808" = str "/api/list/" ++ fmtInt 9223372036854775808 :=
  ⟨handleConnection_get _ _ requestLine_get_12abc (by decide), path_12abc_not_decimal,
   handleConnection_get_bad_id _ _ requestLine_get_big (by decide) (by decide), by decide⟩

theorem SkipSpace_of_no_space_start {b : UInt8} (rest : GoString) (h10 : b ≠ 10)
    (hsp : b ≠ 9 ∧ b ≠ 11 ∧ b ≠ 12 ∧ b ≠ 13 ∧ b ≠ 32)
    (hlead : b ≠ 0xC2 ∧ b ≠ 0xE1 ∧ b ≠ 0xE2 ∧ b ≠ 0xE3) :
    SkipSpace (b :: rest) = some (b :: rest) := by
  obtain ⟨n9, n11, n12, n13, n32⟩ := hsp
  obtain ⟨nC2, nE1, nE2, nE3⟩ := hlead
  match rest with
  | [] => simp [SkipSpace, h10, n9, n11, n12, n13, n32]
  | [b2] => simp [SkipSpace, h10, n9, n11, n12, n13, n32, nC2]
  | b2 :: b3 :: rest3 =>
    simp [SkipSpace, h10, n9, n11, n12, n13, n32, nC2, nE1, nE2, nE3]

theorem Sscanf_none_of_no_number_start (b : UInt8) (rest : GoString)
    (hd : isDigit b = false) (hsign : b ≠ 43 ∧ b ≠ 45)
    (hsp : b ≠ 9 ∧ b ≠ 11 ∧ b ≠ 12 ∧ b ≠ 13 ∧ b ≠ 32)
    (hlead : b ≠ 0xC2 ∧ b ≠ 0xE1 ∧ b ≠ 0xE2 ∧ b ≠ 0xE3) :
    Sscanf (str "/api/list/" ++ b :: rest) = none := by
  have hp : HasPrefix (str "/api/list/" ++ b :: rest) (str "/api/list/") = true := by
    rw [HasPrefix, List.isPrefixOf_iff_prefix]
    exact List.prefix_append _ _
  have hdrop : (str "/api/list/" ++ b :: rest).drop 10 = b :: rest := by
    rw [List.drop_append_of_le_length (by decide)]
    rfl
  rw [Sscanf, if_pos hp, hdrop]
  by_cases h10 : b = 10
  · have : SkipSpace (b :: rest) = none := by
      rw [h10]
      match rest with
      | [] => simp [SkipSpace]
      | [b2] => simp [SkipSpace]
      | b2 :: b3 :: rest3 => simp [SkipSpace]
    rw [this]
  · rw [SkipSpace_of_no_space_start rest h10 hsp hlead]
    have h45 : ¬ b = 45 := hsign.2
    have h43 : ¬ b = 43 := hsign.1
    simp only [List.head?_cons, Option.some.injEq, h45, h43, or_self, if_false,
      List.takeWhile_cons, hd, Bool.false_eq_true, if_true]

theorem Sscanf_fmtInt_out_of_range (n : Int) (tail : GoString)
    (hout : n < -9223372036854775808 ∨ 9223372036854775807 < n)
    (htail : (tail.head?.map isDigit).getD false = false) :
    Sscanf (str "/api/list/" ++ fmtInt n ++ tail) = none := by
  have hp : HasPrefix (str "/api/list/" ++ fmtInt n ++ tail) (str "/api/list/") = true := by
    rw [HasPrefix, List.isPrefixOf_iff_prefix, List.append_assoc]
    exact List.prefix_append _ _
  have hd : (str "/api/list/" ++ fmtInt n ++ tail).drop 10 = fmtInt n ++ tail := by
    rw [List.append_assoc, List.drop_append_of_le_length (by decide)]
    rfl
  have hrange : ¬ (-9223372036854775808 ≤ n ∧ n ≤ 9223372036854775807) := by omega
  rw [Sscanf, if_pos hp, hd]
  cases n with
  | ofNat m =>
    obtain ⟨hne, hdig, hval⟩ := fmtNat_spec m
    obtain ⟨d, ds, hcons⟩ := List.exists_cons_of_ne_nil hne
    have hdd : isDigit d = true := hdig d (by rw [hcons]; exact List.mem_cons_self _ _)
    have hdb := isDigit_bounds hdd
    have h45 : ¬ d = 45 := by intro e; rw [e] at hdb; revert hdb; decide
    have h43 : ¬ d = 43 := by intro e; rw [e] at hdb; revert hdb; decide
    have htw : (d :: (ds ++ tail)).takeWhile isDigit = d :: ds := by
      have := @takeWhile_digits_append (d :: ds) tail
        (by rw [← hcons]; exact hdig) htail
      simpa using this
    simp only [fmtInt, hcons, List.cons_append, SkipSpace_of_digit_or_sign _ (Or.inl hdd),
      List.head?_cons, Option.some.injEq, h45, h43, or_self, if_false, htw]
    have hrange2 : ¬ (-9223372036854775808 ≤ (m : Int) ∧ (m : Int) ≤ 9223372036854775807) :=
      hrange
    rw [← hcons, hval, if_neg hne, if_neg hrange2]
  | negSucc m =>
    obtain ⟨hne, hdig, hval⟩ := fmtNat_spec (m + 1)
    have e45 : str "-" = [45] := by decide
    have htw : (fmtNat (m + 1) ++ tail).takeWhile isDigit = fmtNat (m + 1) :=
      takeWhile_digits_append hdig htail
    simp only [fmtInt, e45, List.cons_append, List.nil_append,
      SkipSpace_of_digit_or_sign _ (Or.inr (Or.inl rfl)), List.head?_cons, true_or, if_true,
      List.drop_one, List.tail_cons, htw, hval, hne, if_false]
    have hrange2 : ¬ (-9223372036854775808 ≤ -((m + 1 : Nat) : Int)
        ∧ -((m + 1 : Nat) : Int) ≤ 9223372036854775807) := hrange
    rw [if_neg hrange2]

theorem Sscanf_none_of_letter (b : UInt8) (rest : GoString)
    (h : (65 ≤ b.toNat ∧ b.toNat ≤ 90) ∨ (97 ≤ b.toNat ∧ b.toNat ≤ 122)) :
    Sscanf (str "/api/list/" ++ b :: rest) = none := by
  have ne : ∀ c : UInt8, (c.toNat < 65 ∨ 122 < c.toNat) → b ≠ c := by
    intro c hc hbc
    rw [hbc] at h
    omega
  apply Sscanf_none_of_no_number_start b rest
  · simp only [isDigit, decide_eq_false_iff_not]
    omega
  · exact ⟨ne 43 (by decide), ne 45 (by decide)⟩
  · exact ⟨ne 9 (by decide), ne 11 (by decide), ne 12 (by decide), ne 13 (by decide),
      ne 32 (by decide)⟩
  · exact ⟨ne 0xC2 (by decide), ne 0xE1 (by decide), ne 0xE2 (by decide), ne 0xE3 (by decide)⟩

/-- C12, amended: for every GET or DELETE request whose path starts with `/api/list`, the
answer follows the scan of the path against `/api/list/%d`: when the scan fails the response
is 400 and the store is unchanged, when it yields n the response is 200 and the Store
operation is applied to exactly n.  For `/api/list/` followed by the decimal rendering of an
integer n and by any text that does not begin with a digit, the scan yields n when n is
within the `int` range and fails when n is outside it.  The scan fails when the path does not
start with `/api/list/`, when nothing follows `/api/list/`, and when the first byte after
`/api/list/` is not a digit, not a sign, not a white-space byte (tab, vertical tab, form feed,
carriage return, space) and not one of the bytes C2, E1, E2, E3 that can begin a UTF-8
encoded Unicode space; so it fails for every ASCII letter in the id position, as in
`/api/list/new`.  For example `/api/list/12abc` scans to 12 and `/api/list/<tab>+007`
scans to 7. -/
theorem id_routes_follow_scan (unmarshal : GoString → Option TodoList) (s : Store)
    (bytes url : GoString) (more : List GoString)
    (hp : HasPrefix url (str "/api/list") = true) :
    (requestLine bytes = str "GET" :: url :: more → Sscanf url = none →
      handleConnection unmarshal s (ReadResult.data bytes)
        = (Outcome.response 400 (str "Bad Request") [], s)) ∧
    (requestLine bytes = str "DELETE" :: url :: more → Sscanf url = none →
      handleConnection unmarshal s (ReadResult.data bytes)
        = (Outcome.response 400 (str "Bad Request") [], s)) ∧
    (∀ n : Int, requestLine bytes = str "GET" :: url :: more → Sscanf url = some n →
      handleConnection unmarshal s (ReadResult.data bytes)
        = (Outcome.response 200 (str "OK") (handleGetRequest n s), s)) ∧
    (∀ n : Int, requestLine bytes = str "DELETE" :: url :: more → Sscanf url = some n →
      handleConnection unmarshal s (ReadResult.data bytes)
        = (Outcome.response 200 (str "OK") [], handleDeleteRequest n s)) ∧
    (∀ (n : Int) (tail : GoString), -9223372036854775808 ≤ n → n ≤ 9223372036854775807 →
      (tail.head?.map isDigit).getD false = false →
      Sscanf (str "/api/list/" ++ fmtInt n ++ tail) = some n) ∧
    (∀ (n : Int) (tail : GoString), (n < -9223372036854775808 ∨ 9223372036854775807 < n) →
      (tail.head?.map isDigit).getD false = false →
      Sscanf (str "/api/list/" ++ fmtInt n ++ tail) = none) ∧
    (∀ path : GoString, HasPrefix path (str "/api/list/") = false → Sscanf path = none) ∧
    Sscanf (str "/api/list/") = none ∧
    (∀ (b : UInt8) (rest : GoString), isDigit b = false → (b ≠ 43 ∧ b ≠ 45) →
      (b ≠ 9 ∧ b ≠ 11 ∧ b ≠ 12 ∧ b ≠ 13 ∧ b ≠ 32) →
      (b ≠ 0xC2 ∧ b ≠ 0xE1 ∧ b ≠ 0xE2 ∧ b ≠ 0xE3) →
      Sscanf (str "/api/list/" ++ b :: rest) = none) ∧
    (∀ (b : UInt8) (rest : GoString),
      ((65 ≤ b.toNat ∧ b.toNat ≤ 90) ∨ (97 ≤ b.toNat ∧ b.toNat ≤ 122)) →
      Sscanf (str "/api/list/" ++ b :: rest) = none) ∧
    Sscanf (str "/api/list/new") = none ∧
    Sscanf (str "/api/list/12abc") = some 12 ∧
    Sscanf (str "/api/list/\t+007") = some 7 :=
  ⟨fun hl hid => handleConnection_get_bad_id unmarshal s hl hp hid,
   fun hl hid => handleConnection_delete_bad_id unmarshal s hl hp hid,
   fun _ hl hid => handleConnection_get unmarshal s hl hid,
   fun _ hl hid => handleConnection_delete unmarshal s hl hid,
   fun n tail hlo hhi ht => Sscanf_fmtInt n tail hlo hhi ht,
   fun n tail hout ht => Sscanf_fmtInt_out_of_range n tail hout ht,
   fun _ h => Sscanf_none_of_no_slash h,
   by decide,
   fun b rest hd hsign hsp hlead => Sscanf_none_of_no_number_start b rest hd hsign hsp hlead,
   fun b rest h => Sscanf_none_of_letter b rest h,
   by decide, by decide, by decide⟩

/-- Witness for C12 amended: `DELETE /api/list/1` is applied to list 1, `/api/list/12abc`
scans to 12, and `/api/list/` followed by the rendering of 2^63 does not scan. -/
theorem id_routes_follow_scan_witness :
    handleConnection (fun _ => none) initStore
        (ReadResult.data (str "DELETE /api/list/1 HTTP/1.1\r\nHost: localhost\r\n\r\n"))
      = (Outcome.response 200 (str "OK") [], handleDeleteRequest 1 initStore) ∧
    Sscanf (str "/api/list/" ++ fmtInt 12 ++ str "abc") = some 12 ∧
    Sscanf (str "/api/list/" ++ fmtInt 9223372036854775808 ++ []) = none :=
  ⟨(id_routes_follow_scan (fun _ => none) initStore _ _ _ (by decide)).2.2.2.1 1
      requestLine_delete_1 Sscanf_list_1,
   (id_routes_follow_scan (fun _ => none) initStore [] (str "/api/list") [] (by decide)).2.2.2.2.1
      12 (str "abc") (by decide) (by decide) (by decide),
   (id_routes_follow_scan (fun _ => none) initStore [] (str "/api/list") []
      (by decide)).2.2.2.2.2.1 9223372036854775808 [] (Or.inr (by decide)) (by decide)⟩

/-! ## Unknown routes -/

theorem ne_new_of_no_prefix {url pre : GoString} (hpre : HasPrefix (str "/api/list/new") pre = true)
    (h : HasPrefix url pre = false) : url ≠ str "/api/list/new" := by
  intro e
  rw [e, hpre] at h
  cases h

theorem handleConnection_not_found (unmarshal : GoString → Option TodoList) (s : Store)
    {bytes method url : GoString} {more : List GoString}
    (hline : requestLine bytes = method :: url :: more)
    (h : (method ≠ str "GET" ∧ method ≠ str "POST" ∧ method ≠ str "DELETE")
      ∨ HasPrefix url (str "/api/list") = false) :
    handleConnection unmarshal s (ReadResult.data bytes)
      = (Outcome.response 404 (str "Not Found") [], s) := by
  rcases h with ⟨h1, h2, h3⟩ | hp
  · simp only [handleConnection, hline, h1, h2, h3, false_and, if_false]
  · have hnew := ne_new_of_no_prefix (by decide) hp
    simp only [handleConnection, hline, hp, hnew, Bool.false_eq_true, and_false, if_false]

theorem handleConnection_no_slash (unmarshal : GoString → Option TodoList) (s : Store)
    {bytes method url : GoString} {more : List GoString}
    (hline : requestLine bytes = method :: url :: more)
    (hm : method = str "GET" ∨ method = str "POST" ∨ method = str "DELETE")
    (hp : HasPrefix url (str "/api/list") = true)
    (hs : HasPrefix url (str "/api/list/") = false) :
    handleConnection unmarshal s (ReadResult.data bytes)
      = (Outcome.response 400 (str "Bad Request") [], s) := by
  have hid := Sscanf_none_of_no_slash hs
  have hnew := ne_new_of_no_prefix (by decide) hs
  have h1 : str "POST" ≠ str "GET" := by decide
  have h2 : str "DELETE" ≠ str "GET" := by decide
  have h3 : str "DELETE" ≠ str "POST" := by decide
  rcases hm with hm | hm | hm
  · simp only [handleConnection, hline, hm, hp, hid, and_self, if_true]
  · simp only [handleConnection, hline, hm, h1, hnew, hp, hid, false_and, and_false, if_false,
      and_self, if_true]
  · simp only [handleConnection, hline, hm, h2, h3, hp, hid, false_and, if_false, and_self,
      if_true]

theorem handleConnection_known_route (unmarshal : GoString → Option TodoList) (s : Store)
    {bytes method url : GoString} {more : List GoString}
    (hline : requestLine bytes = method :: url :: more)
    (hm : method = str "GET" ∨ method = str "POST" ∨ method = str "DELETE")
    (hp : HasPrefix url (str "/api/list") = true) :
    (handleConnection unmarshal s (ReadResult.data bytes)).1
      ≠ Outcome.response 404 (str "Not Found") [] := by
  have h1 : str "POST" ≠ str "GET" := by decide
  have h2 : str "DELETE" ≠ str "GET" := by decide
  have h3 : str "DELETE" ≠ str "POST" := by decide
  rcases hm with hm | hm | hm
  · simp only [handleConnection, hline, hm, hp, and_self, if_true]
    split <;> simp
  · simp only [handleConnection, hline, hm, h1, hp, false_and, if_false, and_true, true_and,
      if_true]
    repeat' split
    all_goals simp
  · simp only [handleConnection, hline, hm, h2, h3, hp, false_and, if_false, and_self, if_true]
    split <;> simp

theorem requestLine_get_listX :
    requestLine (str "GET /api/listX HTTP/1.1\r\n\r\n")
      = [str "GET", str "/api/listX", str "HTTP/1.1"] :=
  (requestLine_of_cut (by decide)
    (by decide : cut (str "\r\n") (str "GET /api/listX HTTP/1.1\r\n\r\n")
      = some (str "GET /api/listX HTTP/1.1", str "\r\n"))).trans (by decide)

/-- C13, as stated, fails: the path `/api/listX` does not start with `/api/list/`, so the
request `GET /api/listX` matches none of the four routes, yet it is answered 400 and not 404:
the routes test the prefix `/api/list` without the final slash. -/
theorem no_slash_path_is_400 :
    HasPrefix (str "/api/listX") (str "/api/list/") = false ∧
    handleConnection (fun _ => none) initStore
        (ReadResult.data (str "GET /api/listX HTTP/1.1\r\n\r\n"))
      = (Outcome.response 400 (str "Bad Request") [], initStore) ∧
    Outcome.response 400 (str "Bad Request") [] ≠ Outcome.response 404 (str "Not Found") [] :=
  ⟨by decide,
   handleConnection_get_bad_id _ _ requestLine_get_listX (by decide) (by decide),
   by decide⟩

/-- C13, amended: every request with a method and a path in its request line whose method is
not GET, POST or DELETE, or whose path does not start with `/api/list` (no final slash), is
answered 404 with an empty body and leaves the store unchanged, and no other request is
answered 404; a GET, POST or DELETE request whose path starts with `/api/list` but not with
`/api/list/` is answered 400 and leaves the store unchanged. -/
theorem unknown_route_is_404 (unmarshal : GoString → Option TodoList) (s : Store)
    (bytes method url : GoString) (more : List GoString)
    (hline : requestLine bytes = method :: url :: more) :
    (((method ≠ str "GET" ∧ method ≠ str "POST" ∧ method ≠ str "DELETE")
        ∨ HasPrefix url (str "/api/list") = false) →
      handleConnection unmarshal s (ReadResult.data bytes)
        = (Outcome.response 404 (str "Not Found") [], s)) ∧
    ((handleConnection unmarshal s (ReadResult.data bytes)).1
        = Outcome.response 404 (str "Not Found") [] →
      (method ≠ str "GET" ∧ method ≠ str "POST" ∧ method ≠ str "DELETE")
        ∨ HasPrefix url (str "/api/list") = false) ∧
    ((method = str "GET" ∨ method = str "POST" ∨ method = str "DELETE") →
      HasPrefix url (str "/api/list") = true → HasPrefix url (str "/api/list/") = false →
      handleConnection unmarshal s (ReadResult.data bytes)
        = (Outcome.response 400 (str "Bad Request") [], s)) := by
  refine ⟨handleConnection_not_found unmarshal s hline, ?_,
    handleConnection_no_slash unmarshal s hline⟩
  intro h404
  by_cases hp : HasPrefix url (str "/api/list") = true
  · by_cases hm : method = str "GET" ∨ method = str "POST" ∨ method = str "DELETE"
    · exact absurd h404 (handleConnection_known_route unmarshal s hline hm hp)
    · left
      exact ⟨fun h => hm (Or.inl h), fun h => hm (Or.inr (Or.inl h)),
        fun h => hm (Or.inr (Or.inr h))⟩
  · right
    simpa using hp

theorem requestLine_put_1 :
    requestLine (str "PUT /api/list/1 HTTP/1.1\r\n\r\n")
      = [str "PUT", str "/api/list/1", str "HTTP/1.1"] :=
  (requestLine_of_cut (by decide)
    (by decide : cut (str "\r\n") (str "PUT /api/list/1 HTTP/1.1\r\n\r\n")
      = some (str "PUT /api/list/1 HTTP/1.1", str "\r\n"))).trans (by decide)

/-- Witness for C13 amended: `PUT /api/list/1` is answered 404. -/
theorem unknown_route_is_404_witness :
    handleConnection (fun _ => none) initStore
        (ReadResult.data (str "PUT /api/list/1 HTTP/1.1\r\n\r\n"))
      = (Outcome.response 404 (str "Not Found") [], initStore) :=
  (unknown_route_is_404 (fun _ => none) initStore _ _ _ _ requestLine_put_1).1
    (Or.inl (by decide))

/-! ## Responses and serialization -/

/-- C14: for every status code, message and body the bytes written are exactly
`HTTP/1.1 <code> <message>\r\n Content-Length: <n>\r\n\r\n<body>`, with the space before
`Content-Length`, where `<n>` is the decimal rendering of the byte length of the body; so the
body is the last n bytes of the response. -/
theorem response_format (code : Int) (msg body : GoString) :
    sendResponse code msg body
      = str "HTTP/1.1 " ++ fmtInt code ++ str " " ++ msg ++ str "\r\n Content-Length: "
        ++ fmtNat body.length ++ str "\r\n\r\n" ++ body ∧
    (∀ b ∈ fmtNat body.length, isDigit b = true) ∧
    digitsValue (fmtNat body.length) = body.length ∧
    (sendResponse code msg body).drop ((sendResponse code msg body).length - body.length)
      = body ∧
    sendResponse 200 (str "OK") (str "\x7b\x7d")
      = str "HTTP/1.1 200 OK\r\n Content-Length: 2\r\n\r\n\x7b\x7d" ∧
    sendResponse 404 (str "Not Found") []
      = str "HTTP/1.1 404 Not Found\r\n Content-Length: 0\r\n\r\n" := by
  refine ⟨rfl, (fmtNat_spec body.length).2.1, (fmtNat_spec body.length).2.2, ?_,
    by decide, by decide⟩
  have hs : sendResponse code msg body
      = (str "HTTP/1.1 " ++ fmtInt code ++ str " " ++ msg ++ str "\r\n Content-Length: "
        ++ fmtInt body.length ++ str "\r\n\r\n") ++ body := rfl
  rw [hs, List.length_append, Nat.add_sub_cancel, List.drop_left]

/-- C15: the serialization of a stored record has the fields id, title and list in that
order, id being the requested key, title the title of the record between double quotes, and
list `[`, the item objects in the order of the record separated by `,`, and `]`; each item
object has the fields itemid, detail and completed in that order; a record with no items
renders its list as exactly `[]` and a record with k items renders k item objects. -/
theorem format_structure (s : Store) (key : Int) (r : TodoList)
    (h : s.todoLists key = some r) :
    handleGetRequest key s
      = str "\x7b\n\t\t\"id\": " ++ fmtInt key ++ str ",\n\t\t\"title\": "
        ++ (str "\"" ++ r.Title ++ str "\"") ++ str ",\n\t\t\"list\": "
        ++ (str "[" ++ Join (r.List.map formatItem) (str ",") ++ str "]") ++ str "\n\t\x7d" ∧
    (∀ item : Item, formatItem item
      = str "\x7b\n\t\t\t\"itemid\": " ++ fmtInt item.ItemID ++ str ",\n\t\t\t\"detail\": "
        ++ (str "\"" ++ item.Detail ++ str "\"") ++ str ",\n\t\t\t\"completed\": "
        ++ fmtBool item.Completed ++ str "\n\t\t\x7d") ∧
    (r.List.map formatItem).length = r.List.length ∧
    (∀ i : Fin r.List.length, (r.List.map formatItem)[i.val]? = some (formatItem r.List[i])) ∧
    Join [] (str ",") = [] ∧
    (∀ a : GoString, Join [a] (str ",") = a) ∧
    (∀ (a b : GoString) (l : List GoString),
      Join (a :: b :: l) (str ",") = a ++ str "," ++ Join (b :: l) (str ",")) ∧
    (∀ (i : Int) (t : GoString), formatItemList ⟨i, t, []⟩ = str "[]") ∧
    fmtBool true = str "true" ∧ fmtBool false = str "false" := by
  refine ⟨?_, ?_, List.length_map _ _, ?_, rfl, fun a => Join_singleton a _,
    fun a b l => Join_cons_cons a b l _, fun _ _ => rfl, rfl, rfl⟩
  · simp only [handleGetRequest, h, formatList, formatItemList]
    have e1 : str ",\n\t\t\"title\": \"" = str ",\n\t\t\"title\": " ++ str "\"" := by decide
    have e2 : str "\",\n\t\t\"list\": " = str "\"" ++ str ",\n\t\t\"list\": " := by decide
    rw [e1, e2]
    simp only [List.append_assoc]
  · intro item
    rw [formatItem]
    have e1 : str ",\n\t\t\t\"detail\": \"" = str ",\n\t\t\t\"detail\": " ++ str "\"" := by
      decide
    have e2 : str "\",\n\t\t\t\"completed\": " = str "\"" ++ str ",\n\t\t\t\"completed\": " := by
      decide
    rw [e1, e2]
    simp only [List.append_assoc]
  · intro i
    simp

/-- Witness for C15: the record with the single item (1, milk, not completed) stored under
key 1. -/
theorem format_structure_witness :
    handleGetRequest 1
        (handlePostNewListRequest ⟨0, str "groceries", [⟨1, str "milk", false⟩]⟩ initStore).2
      = str "\x7b\n\t\t\"id\": 1,\n\t\t\"title\": \"groceries\",\n\t\t\"list\": [\x7b\n\t\t\t\"itemid\": 1,\n\t\t\t\"detail\": \"milk\",\n\t\t\t\"completed\": false\n\t\t\x7d]\n\t\x7d" :=
  (format_structure
    (handlePostNewListRequest ⟨0, str "groceries", [⟨1, str "milk", false⟩]⟩ initStore).2 1
    ⟨0, str "groceries", [⟨1, str "milk", false⟩]⟩ (by decide)).1.trans (by decide)

/-! ## Frame properties -/

theorem handleConnection_get_store (unmarshal : GoString → Option TodoList) (s : Store)
    {bytes url : GoString} {more : List GoString}
    (hline : requestLine bytes = str "GET" :: url :: more) :
    (handleConnection unmarshal s (ReadResult.data bytes)).2 = s := by
  simp only [handleConnection, hline, true_and]
  split
  · split <;> rfl
  · rfl

theorem handleGetRequest_congr {s t : Store} {j : Int} (h : t.todoLists j = s.todoLists j) :
    handleGetRequest j t = handleGetRequest j s := by
  simp only [handleGetRequest, h]

/-- C17: Get does not change the store (map and counter are the same after it, also through
the GET route, and a second Get of the same id returns the same string), and every write is
local to its key: after a Create (key counter + 1), a Replace (key r.id) or a Delete (key i),
Get(j) of every other key j returns the same string as before. -/
theorem writes_are_local (unmarshal : GoString → Option TodoList) (s : Store) :
    (∀ id : Int, (Op.Get id).next s = s) ∧
    (∀ (bytes url : GoString) (more : List GoString),
      requestLine bytes = str "GET" :: url :: more →
      (handleConnection unmarshal s (ReadResult.data bytes)).2 = s) ∧
    (∀ id : Int, handleGetRequest id ((Op.Get id).next s) = handleGetRequest id s) ∧
    (∀ (r : TodoList) (j : Int), j ≠ (handlePostNewListRequest r s).2.listIDCounter →
      handleGetRequest j (handlePostNewListRequest r s).2 = handleGetRequest j s) ∧
    (∀ (r : TodoList) (j : Int), j ≠ r.Id →
      handleGetRequest j (handlePostListRequest r s) = handleGetRequest j s) ∧
    (∀ i j : Int, j ≠ i →
      handleGetRequest j (handleDeleteRequest i s) = handleGetRequest j s) := by
  refine ⟨fun _ => rfl, fun bytes url more hl => handleConnection_get_store unmarshal s hl,
    fun _ => rfl, ?_, ?_, ?_⟩
  · intro r j hj
    apply handleGetRequest_congr
    simp only [handlePostNewListRequest] at hj ⊢
    rw [Function.update_noteq hj]
  · intro r j hj
    apply handleGetRequest_congr
    simp only [handlePostListRequest]
    split
    · rfl
    · simp only [Function.update_noteq hj]
  · intro i j hj
    apply handleGetRequest_congr
    simp only [handleDeleteRequest, Function.update_noteq hj]

/-- Witness for C17: with lists 1 and 2 stored, deleting list 2 leaves Get(1) as it was. -/
theorem writes_are_local_witness :
    handleGetRequest 1 (handleDeleteRequest 2
        (run initStore [Op.Create ⟨0, str "a", []⟩, Op.Create ⟨0, str "b", []⟩]))
      = handleGetRequest 1
        (run initStore [Op.Create ⟨0, str "a", []⟩, Op.Create ⟨0, str "b", []⟩]) ∧
    (handleConnection (fun _ => none) initStore
        (ReadResult.data (str "GET /api/list/1 HTTP/1.1\r\nHost: localhost\r\n\r\n"))).2
      = initStore :=
  ⟨(writes_are_local (fun _ => none)
      (run initStore [Op.Create ⟨0, str "a", []⟩, Op.Create ⟨0, str "b", []⟩])).2.2.2.2.2 2 1
      (by decide),
   (writes_are_local (fun _ => none) initStore).2.1 _ _ _ requestLine_get_1⟩

/-! ## Serialization is not injective -/

/-- C18: the serialization does not escape the strings it interpolates, so it is not
injective: the record with the single item whose detail embeds a double quote and the text of
an item boundary, and the record with two plain items, are different records with the
identical serialization under every id. -/
theorem format_not_injective :
    (⟨0, str "t", [⟨1, str "a\",\n\t\t\t\"completed\": false\n\t\t\x7d,\x7b\n\t\t\t\"itemid\": 2,\n\t\t\t\"detail\": \"b", true⟩]⟩ : TodoList)
      ≠ ⟨0, str "t", [⟨1, str "a", false⟩, ⟨2, str "b", true⟩]⟩ ∧
    (∀ id : Int,
      formatList id ⟨0, str "t", [⟨1, str "a\",\n\t\t\t\"completed\": false\n\t\t\x7d,\x7b\n\t\t\t\"itemid\": 2,\n\t\t\t\"detail\": \"b", true⟩]⟩
        = formatList id ⟨0, str "t", [⟨1, str "a", false⟩, ⟨2, str "b", true⟩]⟩) ∧
    (∀ id : Int, ¬ Function.Injective (formatList id)) ∧
    handleGetRequest 1 (handlePostNewListRequest
        ⟨0, str "t", [⟨1, str "a\",\n\t\t\t\"completed\": false\n\t\t\x7d,\x7b\n\t\t\t\"itemid\": 2,\n\t\t\t\"detail\": \"b", true⟩]⟩
        initStore).2
      = handleGetRequest 1 (handlePostNewListRequest
        ⟨0, str "t", [⟨1, str "a", false⟩, ⟨2, str "b", true⟩]⟩ initStore).2 := by
  have hne : (⟨0, str "t", [⟨1, str "a\",\n\t\t\t\"completed\": false\n\t\t\x7d,\x7b\n\t\t\t\"itemid\": 2,\n\t\t\t\"detail\": \"b", true⟩]⟩ : TodoList)
      ≠ ⟨0, str "t", [⟨1, str "a", false⟩, ⟨2, str "b", true⟩]⟩ := by decide
  have hitems : formatItemList ⟨0, str "t", [⟨1, str "a\",\n\t\t\t\"completed\": false\n\t\t\x7d,\x7b\n\t\t\t\"itemid\": 2,\n\t\t\t\"detail\": \"b", true⟩]⟩
      = formatItemList ⟨0, str "t", [⟨1, str "a", false⟩, ⟨2, str "b", true⟩]⟩ := by decide
  have heq : ∀ id : Int,
      formatList id ⟨0, str "t", [⟨1, str "a\",\n\t\t\t\"completed\": false\n\t\t\x7d,\x7b\n\t\t\t\"itemid\": 2,\n\t\t\t\"detail\": \"b", true⟩]⟩
        = formatList id ⟨0, str "t", [⟨1, str "a", false⟩, ⟨2, str "b", true⟩]⟩ := by
    intro id
    simp only [formatList, hitems]
  refine ⟨hne, heq, fun id hinj => hne (hinj (heq id)), ?_⟩
  have hget : ∀ r : TodoList,
      handleGetRequest 1 (handlePostNewListRequest r initStore).2 = formatList 1 r := by
    intro r
    simp [handleGetRequest, handlePostNewListRequest, initStore]
  rw [hget, hget, heq]

/-! ## POST requests without a header line -/

theorem requestBody_without_header (line : GoString) (y : UInt8) (ys : GoString) (n : Nat)
    (h : 13 ∉ y :: ys) :
    requestBody [line, str "\r\n" ++ (y :: ys) ++ List.replicate n 0] = none := by
  apply requestBody_no_blank_line
  have e : str "\r\n" = [13, 10] := by decide
  have hy : y ≠ 13 := fun e13 => h (e13 ▸ List.mem_cons_self _ _)
  rw [e]
  simp only [List.cons_append, List.nil_append]
  rw [cut_blank_line_after_crlf y _ hy, cut_eq_none_of_not_mem (b := 13) (by decide)]
  · rfl
  · intro hm
    rw [← List.cons_append, List.mem_append, List.mem_replicate] at hm
    rcases hm with hm | hm
    · exact h hm
    · exact absurd hm.2 (by decide)

theorem handleConnection_replace_body (unmarshal : GoString → Option TodoList) (s : Store)
    {bytes url body : GoString} {more : List GoString} {listID : Int}
    (hline : requestLine bytes = str "POST" :: url :: more) (hid : Sscanf url = some listID)
    (hbody : requestBody (requestLines bytes) = some body) :
    handleConnection unmarshal s (ReadResult.data bytes)
      = match unmarshal body with
        | none => (Outcome.response 400 (str "Bad Request") [], s)
        | some modifyListRequest =>
          if modifyListRequest.Id ≠ listID then
            (Outcome.response 400 (str "Bad Request") [], s)
          else (Outcome.response 200 (str "OK") [], handlePostListRequest modifyListRequest s) := by
  have h1 : str "POST" ≠ str "GET" := by decide
  simp only [handleConnection, hline, h1, false_and, if_false, Sscanf_ne_new hid, and_false,
    Sscanf_hasPrefix hid, and_self, if_true, hid, hbody]

theorem handleConnection_replace_no_body (unmarshal : GoString → Option TodoList) (s : Store)
    {bytes url : GoString} {more : List GoString} {listID : Int}
    (hline : requestLine bytes = str "POST" :: url :: more) (hid : Sscanf url = some listID)
    (hbody : requestBody (requestLines bytes) = none) :
    handleConnection unmarshal s (ReadResult.data bytes) = (Outcome.panic, s) := by
  have h1 : str "POST" ≠ str "GET" := by decide
  simp only [handleConnection, hline, h1, false_and, if_false, Sscanf_ne_new hid, and_false,
    Sscanf_hasPrefix hid, and_self, if_true, hid, hbody]

theorem requestLine_post_1_bare :
    requestLine (str "POST /api/list/1 HTTP/1.1\r\n\r\n\x7b\"id\":1,\"title\":\"groceries\",\"list\":[]\x7d")
      = [str "POST", str "/api/list/1", str "HTTP/1.1"] :=
  (requestLine_of_cut (by decide)
    (by decide : cut (str "\r\n")
        (str "POST /api/list/1 HTTP/1.1\r\n\r\n\x7b\"id\":1,\"title\":\"groceries\",\"list\":[]\x7d")
      = some (str "POST /api/list/1 HTTP/1.1",
          str "\r\n" ++ str "\x7b\"id\":1,\"title\":\"groceries\",\"list\":[]\x7d"))).trans
    (by decide)

theorem requestBody_post_1_bare :
    requestBody (requestLines
        (str "POST /api/list/1 HTTP/1.1\r\n\r\n\x7b\"id\":1,\"title\":\"groceries\",\"list\":[]\x7d"))
      = none := by
  rw [requestLines_of_cut (by decide)
    (by decide : cut (str "\r\n")
        (str "POST /api/list/1 HTTP/1.1\r\n\r\n\x7b\"id\":1,\"title\":\"groceries\",\"list\":[]\x7d")
      = some (str "POST /api/list/1 HTTP/1.1",
          str "\r\n" ++ str "\x7b\"id\":1,\"title\":\"groceries\",\"list\":[]\x7d"))]
  have e : str "\x7b\"id\":1,\"title\":\"groceries\",\"list\":[]\x7d"
      = 123 :: str "\"id\":1,\"title\":\"groceries\",\"list\":[]\x7d" := by decide
  rw [e]
  exact requestBody_without_header _ 123 _ _ (by decide)

theorem requestLine_post_1_json :
    requestLine (str "POST /api/list/1 HTTP/1.1\r\nHost: localhost\r\n\r\n\x7b\"id\":1,\"title\":\"groceries\",\"list\":[]\x7d")
      = [str "POST", str "/api/list/1", str "HTTP/1.1"] :=
  (requestLine_of_cut (by decide)
    (by decide : cut (str "\r\n")
        (str "POST /api/list/1 HTTP/1.1\r\nHost: localhost\r\n\r\n\x7b\"id\":1,\"title\":\"groceries\",\"list\":[]\x7d")
      = some (str "POST /api/list/1 HTTP/1.1",
          str "Host: localhost\r\n\r\n\x7b\"id\":1,\"title\":\"groceries\",\"list\":[]\x7d"))).trans
    (by decide)

theorem requestBody_post_1_json :
    requestBody (requestLines
        (str "POST /api/list/1 HTTP/1.1\r\nHost: localhost\r\n\r\n\x7b\"id\":1,\"title\":\"groceries\",\"list\":[]\x7d"))
      = some (str "\x7b\"id\":1,\"title\":\"groceries\",\"list\":[]\x7d") := by
  rw [requestLines_of_cut (by decide)
    (by decide : cut (str "\r\n")
        (str "POST /api/list/1 HTTP/1.1\r\nHost: localhost\r\n\r\n\x7b\"id\":1,\"title\":\"groceries\",\"list\":[]\x7d")
      = some (str "POST /api/list/1 HTTP/1.1",
          str "Host: localhost\r\n\r\n\x7b\"id\":1,\"title\":\"groceries\",\"list\":[]\x7d")),
    requestBody_of_cut _
      (by decide : cut (str "\r\n\r\n")
          (str "Host: localhost\r\n\r\n\x7b\"id\":1,\"title\":\"groceries\",\"list\":[]\x7d")
        = some (str "Host: localhost",
            str "\x7b\"id\":1,\"title\":\"groceries\",\"list\":[]\x7d"))]
  decide

/-- C8 fails on the code: the request `POST /api/list/1 HTTP/1.1`, blank line, body
`{"id":1,"title":"groceries","list":[]}`, with no header line, is answered neither 200 nor
400 whatever the body decodes to: `requestLines[1]` holds no `\r\n\r\n`, so indexing the split
at 1 fails with an index out of range.  The same request with one header line is answered as
the claim says: 400 when the body does not decode or its id is not 1, otherwise 200 with an
empty body after Replace. -/
theorem replace_request_without_header_panics (unmarshal : GoString → Option TodoList)
    (s : Store) :
    handleConnection unmarshal s (ReadResult.data
        (str "POST /api/list/1 HTTP/1.1\r\n\r\n\x7b\"id\":1,\"title\":\"groceries\",\"list\":[]\x7d"))
      = (Outcome.panic, s) ∧
    handleConnection unmarshal s (ReadResult.data
        (str "POST /api/list/1 HTTP/1.1\r\nHost: localhost\r\n\r\n\x7b\"id\":1,\"title\":\"groceries\",\"list\":[]\x7d"))
      = match unmarshal (str "\x7b\"id\":1,\"title\":\"groceries\",\"list\":[]\x7d") with
        | none => (Outcome.response 400 (str "Bad Request") [], s)
        | some modifyListRequest =>
          if modifyListRequest.Id ≠ 1 then (Outcome.response 400 (str "Bad Request") [], s)
          else (Outcome.response 200 (str "OK") [], handlePostListRequest modifyListRequest s) :=
  ⟨handleConnection_replace_no_body unmarshal s requestLine_post_1_bare Sscanf_list_1
      requestBody_post_1_bare,
   handleConnection_replace_body unmarshal s requestLine_post_1_json Sscanf_list_1
      requestBody_post_1_json⟩

theorem requestLine_post_new_AB :
    requestLine (str "POST /api/list/new HTTP/1.1\r\nHost: localhost\r\n\r\nAB")
      = [str "POST", str "/api/list/new", str "HTTP/1.1"] :=
  (requestLine_of_cut (by decide)
    (by decide : cut (str "\r\n")
        (str "POST /api/list/new HTTP/1.1\r\nHost: localhost\r\n\r\nAB")
      = some (str "POST /api/list/new HTTP/1.1", str "Host: localhost\r\n\r\nAB"))).trans
    (by decide)

theorem requestBody_post_new_AB :
    requestBody (requestLines (str "POST /api/list/new HTTP/1.1\r\nHost: localhost\r\n\r\nAB"))
      = some (str "AB") := by
  rw [requestLines_of_cut (by decide)
    (by decide : cut (str "\r\n")
        (str "POST /api/list/new HTTP/1.1\r\nHost: localhost\r\n\r\nAB")
      = some (str "POST /api/list/new HTTP/1.1", str "Host: localhost\r\n\r\nAB")),
    requestBody_of_cut _
      (by decide : cut (str "\r\n\r\n") (str "Host: localhost\r\n\r\nAB")
        = some (str "Host: localhost", str "AB"))]
  decide

/-- C9 fails on the code in its last clause: the request `POST /api/list/new HTTP/1.1`, blank
line, body `AB`, with no header line, is not answered 400 although `AB` is not a TodoList in
JSON: the handler fails with an index out of range before it decodes anything, whatever the
decoder is.  The same request with one header line is answered 400 with the store unchanged
when the body does not decode. -/
theorem create_request_without_header_panics (unmarshal : GoString → Option TodoList)
    (s : Store) :
    handleConnection unmarshal s
        (ReadResult.data (str "POST /api/list/new HTTP/1.1\r\n\r\nAB"))
      = (Outcome.panic, s) ∧
    handleConnection unmarshal s
        (ReadResult.data (str "POST /api/list/new HTTP/1.1\r\nHost: localhost\r\n\r\nAB"))
      = match unmarshal (str "AB") with
        | none => (Outcome.response 400 (str "Bad Request") [], s)
        | some newListRequest =>
          (Outcome.response 200 (str "OK") (handlePostNewListRequest newListRequest s).1,
           (handlePostNewListRequest newListRequest s).2) :=
  ⟨handleConnection_no_body unmarshal s requestLine_post_new_bare requestBody_post_new_bare,
   handleConnection_create unmarshal s requestLine_post_new_AB requestBody_post_new_AB⟩

end TodoServer
